import Mathlib

/-!
Verification development for the pptx-shredder chunking/formatting core.

Strings are modelled as `List Char` (`Str`).  Python string/character
classes (`str.lower`, `\s`, `\w`, ...) are modelled over ASCII, which covers
every keyword table and every concrete input appearing in this file.
CPython `dict` preserves insertion order and is modelled as an association
list; `dict[k] = v` is `dictInsert` (replace in place or append).
-/

/-- Strings as character lists. -/
abbrev Str := List Char

/-- Coerce a Lean string literal to the `Str` model. -/
def str (s : String) : Str := s.toList

/-- ASCII decimal digit test (Python `\d` on the inputs considered). -/
def isDigitC (c : Char) : Bool := '0' ≤ c && c ≤ '9'

/-- ASCII whitespace (models Python `\s` / `str.strip` / `str.split`). -/
def isWsC (c : Char) : Bool :=
  c = ' ' || c = '\t' || c = '\n' || c = '\r' || c = Char.ofNat 11 || c = Char.ofNat 12

/-- ASCII lower-case letter test. -/
def isLowerC (c : Char) : Bool := 'a' ≤ c && c ≤ 'z'

/-- ASCII upper-case letter test. -/
def isUpperC (c : Char) : Bool := 'A' ≤ c && c ≤ 'Z'

/-- ASCII letter test. -/
def isAlphaC (c : Char) : Bool := isLowerC c || isUpperC c

/-- ASCII word character (Python `\w` on ASCII input). -/
def isWordC (c : Char) : Bool := isAlphaC c || isDigitC c || c = '_'

/-- ASCII `str.lower` on one character. -/
def asciiLowerC (c : Char) : Char :=
  if isUpperC c then Char.ofNat (c.toNat + 32) else c

/-- ASCII `str.upper` on one character. -/
def asciiUpperC (c : Char) : Char :=
  if isLowerC c then Char.ofNat (c.toNat - 32) else c

/-- Model of `str.lower` (ASCII model). -/
def lowerStr (s : Str) : Str := s.map asciiLowerC

/-- Model of `str.upper` (ASCII model). -/
def upperStr (s : Str) : Str := s.map asciiUpperC

/-- Model of `str.lstrip` restricted to a character set. -/
def lstripSet (cs : Str) (s : Str) : Str := s.dropWhile (cs.contains ·)

/-- Model of `str.rstrip` restricted to a character set. -/
def rstripSet (cs : Str) (s : Str) : Str :=
  ((s.reverse).dropWhile (cs.contains ·)).reverse

/-- Model of `str.strip` restricted to a character set. -/
def stripSet (cs : Str) (s : Str) : Str := rstripSet cs (lstripSet cs s)

/-- Model of `str.strip()` (whitespace strip). -/
def stripWs (s : Str) : Str := ((s.dropWhile isWsC).reverse.dropWhile isWsC).reverse

/-- Model of `' '.join(blocks)`. -/
def joinSp (blocks : List Str) : Str := (blocks.intersperse (str " ")).flatten

/-- Does `needle` occur as a contiguous substring (Python `in` on `str`)? -/
def containsSub (needle s : Str) : Bool :=
  (List.range (s.length + 1)).any fun i => needle.isPrefixOf (s.drop i)

/-- Number of whitespace-separated words (`len(s.split())`), via a
previous-char-was-separator flag. -/
def wordCountAux (prevWs : Bool) : Str → Nat
  | [] => 0
  | c :: cs =>
    if isWsC c then wordCountAux true cs
    else (if prevWs then 1 else 0) + wordCountAux false cs

/-- Model of `len(s.split())`. -/
def wordCount (s : Str) : Nat := wordCountAux true s

/-- Decimal rendering of a natural number (Python `str(n)` / f-string). -/
def natToStr (n : Nat) : Str := Nat.toDigits 10 n

/-- f-string `{n:02d}`: decimal, left-padded with `0` to width 2. -/
def natPad2 (n : Nat) : Str :=
  let d := natToStr n
  if d.length < 2 then List.replicate (2 - d.length) '0' ++ d else d

/-- Python dict assignment `m[k] = v`: replace the value in place if the key
exists, otherwise append the pair (insertion order preserved). -/
def dictInsert {α β : Type} [BEq α] (k : α) (v : β) : List (α × β) → List (α × β)
  | [] => [(k, v)]
  | (k', v') :: rest =>
    if k == k' then (k, v) :: rest else (k', v') :: dictInsert k v rest

/-- Order-preserving deduplication keeping the first occurrence
(Python `list(dict.fromkeys(xs))`); `seen` holds the elements already
emitted. -/
def dedupKeepFirstAux {α : Type} [DecidableEq α] (seen : List α) :
    List α → List α
  | [] => []
  | a :: l =>
    if a ∈ seen then dedupKeepFirstAux seen l
    else a :: dedupKeepFirstAux (a :: seen) l

/-- Order-preserving deduplication keeping the first occurrence
(Python `list(dict.fromkeys(xs))`). -/
def dedupKeepFirst {α : Type} [DecidableEq α] (l : List α) : List α :=
  dedupKeepFirstAux [] l

/-! ## `utils.sanitize_filename` (src/src/utils.py) -/

/-- The forbidden filesystem characters of `sanitize_filename`
(`invalid_chars = '<>:"/\\|?*'`). -/
def INVALID_CHARS : Str := str "<>:\"/\\|?*"

/-- Control characters replaced by `sanitize_filename`
(regex `[\x00-\x1f\x7f-\x9f]`). -/
def isCtrlC (c : Char) : Bool :=
  c.toNat ≤ 0x1f || (0x7f ≤ c.toNat && c.toNat ≤ 0x9f)

/-- Model of `re.sub(r'[\s_]+', '_', s)`: collapse each run of whitespace/underscore
characters into a single underscore.  The flag records whether the previous
character was part of such a run. -/
def collapseWsU (prev : Bool) : Str → Str
  | [] => []
  | c :: cs =>
    if isWsC c || c = '_' then
      if prev then collapseWsU true cs else '_' :: collapseWsU true cs
    else c :: collapseWsU false cs

/-- Index of the last occurrence of `c` in `s` (Python `str.rfind`, as an
`Option` instead of `-1`). -/
def lastIndexOf (c : Char) (s : Str) : Option Nat :=
  ((List.range s.length).filter (fun i => s.get? i == some c)).getLast?

/-- POSIX `os.path.splitext`: split off the extension at the last dot of the
last path component, unless that component consists only of leading dots up
to it. -/
def splitext (p : Str) : Str × Str :=
  match lastIndexOf '.' p with
  | none => (p, [])
  | some d =>
    let b := match lastIndexOf '/' p with
      | some k => k + 1
      | none => 0
    if b ≤ d then
      if ((p.take d).drop b).all (· == '.') then (p, [])
      else (p.take d, p.drop d)
    else (p, [])

/-- Python slice `s[:n]` for a possibly negative bound `n`. -/
def pySliceTo (s : Str) (n : Int) : Str :=
  if 0 ≤ n then s.take n.toNat else s.take (s.length - (-n).toNat)

/-- The Windows reserved device names checked by `sanitize_filename`. -/
def windowsReserved : List Str :=
  [str "CON", str "PRN", str "AUX", str "NUL",
   str "COM1", str "COM2", str "COM3", str "COM4", str "COM5",
   str "COM6", str "COM7", str "COM8", str "COM9",
   str "LPT1", str "LPT2", str "LPT3", str "LPT4", str "LPT5",
   str "LPT6", str "LPT7", str "LPT8", str "LPT9"]

/-- Stages 1-4 of the `sanitize_filename` name-part pipeline: replace the
invalid filesystem characters by `_`, replace control characters by `_`,
collapse whitespace/underscore runs, then `strip(' ._')`. -/
def sfnClean (name0 : Str) : Str :=
  stripSet (str " ._") (collapseWsU false
    ((name0.map fun c => if INVALID_CHARS.contains c then '_' else c).map
      fun c => if isCtrlC c then '_' else c))

/-- Stages 5-6 of the pipeline: the hidden-file guard (`'file' + name` when
the name starts with a dot) and the Windows reserved-name guard
(`'file_' + name`). -/
def sfnGuard (name0 : Str) : Str :=
  let n4 := sfnClean name0
  let n5 := if n4.head? == some '.' then str "file" ++ n4 else n4
  if windowsReserved.contains (upperStr n5) then str "file_" ++ n5 else n5

/-- Stage 7: length cap `name_part[:150 - len(ext)].rstrip('_')`. -/
def sfnTrunc (name0 : Str) (extLen : Nat) : Str :=
  let n6 := sfnGuard name0
  if (n6.length : Int) > 150 - (extLen : Int) then
    rstripSet (str "_") (pySliceTo n6 (150 - (extLen : Int)))
  else n6

/-- The full name-part pipeline of `utils.sanitize_filename` (everything done
to `name_part` between the `splitext` and the final `name_part + ext`);
`extLen` is the length of the extension that will be appended. -/
def sanitizeNamePart (name0 : Str) (extLen : Nat) : Str :=
  if (sfnTrunc name0 extLen).isEmpty then str "untitled" else sfnTrunc name0 extLen

/-- Model of `utils.sanitize_filename`, step for step.  (`filename=None` behaves like
the empty string and is outside the `Str` model.) -/
def sanitizeFilename (filename : Str) : Str :=
  if filename.isEmpty then str "untitled.md" else
  let pe := splitext filename
  let ext := if pe.2.isEmpty then str ".md" else pe.2
  sanitizeNamePart pe.1 ext.length ++ ext

/-! ### Facts about the sanitization pipeline -/

theorem dropWhile_head_false {p : Char → Bool} {l : Str} :
    ∀ {c t}, l.dropWhile p = c :: t → p c = false := by
  induction l with
  | nil => intro c t h; simp [List.dropWhile] at h
  | cons a l ih =>
    intro c t h
    by_cases ha : p a
    · exact ih (by simpa [List.dropWhile, ha] using h)
    · simp only [List.dropWhile, ha, Bool.false_eq_true, if_false] at h
      cases h
      simpa using ha

theorem rstripSet_isPrefix (cs s : Str) : rstripSet cs s <+: s := by
  have h : (s.reverse).dropWhile (cs.contains ·) <:+ s.reverse :=
    List.dropWhile_suffix _
  have h2 := Iff.mpr List.reverse_prefix h
  simpa [rstripSet] using h2

theorem safeChar_of_result {d : Char}
    (h : d = '_' ∨ INVALID_CHARS.contains d = false) :
    INVALID_CHARS.contains d = false := by
  rcases h with rfl | h
  · decide
  · exact h

theorem mem_condMap {f : Char → Bool} {s : Str} {c : Char}
    (h : c ∈ s.map fun x => if f x then '_' else x) : c = '_' ∨ c ∈ s := by
  rcases List.mem_map.1 h with ⟨x, hx, hfx⟩
  by_cases hf : f x
  · rw [if_pos hf] at hfx
    exact Or.inl hfx.symm
  · rw [if_neg hf] at hfx
    subst hfx
    exact Or.inr hx

theorem mem_collapseWsU : ∀ {b : Bool} {s : Str} {c : Char},
    c ∈ collapseWsU b s → c = '_' ∨ c ∈ s := by
  intro b s
  induction s generalizing b with
  | nil => intro c h; simp [collapseWsU] at h
  | cons a t ih =>
    intro c h
    by_cases ha : isWsC a || a = '_'
    · cases b with
      | true =>
        simp only [collapseWsU, ha, if_true] at h
        rcases ih h with h' | h'
        · exact Or.inl h'
        · exact Or.inr (List.mem_cons_of_mem _ h')
      | false =>
        simp only [collapseWsU, ha, if_true] at h
        rcases List.mem_cons.1 h with rfl | h'
        · exact Or.inl rfl
        · rcases ih h' with h'' | h''
          · exact Or.inl h''
          · exact Or.inr (List.mem_cons_of_mem _ h'')
    · simp only [collapseWsU, ha, Bool.false_eq_true, if_false] at h
      rcases List.mem_cons.1 h with rfl | h'
      · exact Or.inr (List.mem_cons_self _ _)
      · rcases ih h' with h'' | h''
        · exact Or.inl h''
        · exact Or.inr (List.mem_cons_of_mem _ h'')

theorem mem_stripSet {cs s : Str} {c : Char} (h : c ∈ stripSet cs s) : c ∈ s := by
  have h1 : c ∈ lstripSet cs s :=
    ((rstripSet_isPrefix cs (lstripSet cs s)).sublist.subset) h
  exact (List.dropWhile_sublist _).subset h1

theorem mem_pySliceTo {s : Str} {n : Int} {c : Char} (h : c ∈ pySliceTo s n) :
    c ∈ s := by
  unfold pySliceTo at h
  split at h <;> exact (List.take_sublist _ _).subset h

theorem mem_sfnClean {n0 : Str} {c : Char} (h : c ∈ sfnClean n0) :
    INVALID_CHARS.contains c = false := by
  apply safeChar_of_result
  unfold sfnClean at h
  have hd3 := mem_stripSet h
  rcases mem_collapseWsU hd3 with rfl | hd2
  · exact Or.inl rfl
  rcases mem_condMap hd2 with rfl | hd1
  · exact Or.inl rfl
  rcases List.mem_map.1 hd1 with ⟨x, _, hfx⟩
  by_cases hx : INVALID_CHARS.contains x = true
  · rw [if_pos hx] at hfx
    exact Or.inl hfx.symm
  · rw [if_neg hx] at hfx
    subst hfx
    exact Or.inr (by simpa using hx)

theorem fileStr_safe : ∀ c ∈ str "file", INVALID_CHARS.contains c = false := by
  decide

theorem fileUStr_safe : ∀ c ∈ str "file_", INVALID_CHARS.contains c = false := by
  decide

theorem untitledStr_safe : ∀ c ∈ str "untitled",
    INVALID_CHARS.contains c = false := by
  decide

theorem mem_sfnGuard {n0 : Str} {c : Char} (h : c ∈ sfnGuard n0) :
    INVALID_CHARS.contains c = false := by
  unfold sfnGuard at h
  simp only at h
  have safe5 : ∀ d, d ∈ (if (sfnClean n0).head? == some '.' then
      str "file" ++ sfnClean n0 else sfnClean n0) →
      INVALID_CHARS.contains d = false := by
    intro d hd
    by_cases hb : ((sfnClean n0).head? == some '.') = true
    · rw [if_pos hb] at hd
      rcases List.mem_append.1 hd with hd' | hd'
      · exact fileStr_safe d hd'
      · exact mem_sfnClean hd'
    · rw [if_neg hb] at hd
      exact mem_sfnClean hd
  by_cases hb2 : windowsReserved.contains (upperStr (if (sfnClean n0).head? == some '.'
      then str "file" ++ sfnClean n0 else sfnClean n0)) = true
  · rw [if_pos hb2] at h
    rcases List.mem_append.1 h with h' | h'
    · exact fileUStr_safe c h'
    · exact safe5 c h'
  · rw [if_neg hb2] at h
    exact safe5 c h

theorem mem_sanitizeNamePart {n0 : Str} {e : Nat} {c : Char}
    (h : c ∈ sanitizeNamePart n0 e) : INVALID_CHARS.contains c = false := by
  unfold sanitizeNamePart at h
  split at h
  · exact untitledStr_safe c h
  · unfold sfnTrunc at h
    simp only at h
    split at h
    · have h8 : c ∈ pySliceTo (sfnGuard n0) (150 - (e : Int)) :=
        (rstripSet_isPrefix _ _).sublist.subset h
      exact mem_sfnGuard (mem_pySliceTo h8)
    · exact mem_sfnGuard h

theorem head?_of_isPrefix {l m : Str} (h : l <+: m) (hne : l ≠ []) :
    m.head? = l.head? := by
  obtain ⟨t, rfl⟩ := h
  cases l with
  | nil => exact absurd rfl hne
  | cons c l' => rfl

theorem sfnGuard_head (n0 : Str) : (sfnGuard n0).head? ≠ some '.' := by
  unfold sfnGuard
  simp only
  have head5 : (if (sfnClean n0).head? == some '.' then
      str "file" ++ sfnClean n0 else sfnClean n0).head? ≠ some '.' := by
    by_cases hb : ((sfnClean n0).head? == some '.') = true
    · rw [if_pos hb]
      have hf : str "file" = 'f' :: str "ile" := by decide
      rw [hf]
      simp
    · rw [if_neg hb]
      intro hcontr
      exact hb (by simp [hcontr])
  by_cases hb2 : windowsReserved.contains (upperStr (if (sfnClean n0).head? == some '.'
      then str "file" ++ sfnClean n0 else sfnClean n0)) = true
  · rw [if_pos hb2]
    have hf : str "file_" = 'f' :: str "ile_" := by decide
    rw [hf]
    simp
  · rw [if_neg hb2]
    exact head5

theorem sfnTrunc_head (n0 : Str) (e : Nat) : (sfnTrunc n0 e).head? ≠ some '.' := by
  unfold sfnTrunc
  simp only
  split
  · by_cases hne : rstripSet (str "_") (pySliceTo (sfnGuard n0) (150 - (e : Int))) = []
    · rw [hne]
      simp
    · have hpre : rstripSet (str "_") (pySliceTo (sfnGuard n0) (150 - (e : Int)))
          <+: sfnGuard n0 := by
        refine (rstripSet_isPrefix _ _).trans ?_
        unfold pySliceTo
        split <;> exact List.take_prefix _ _
      rw [← head?_of_isPrefix hpre hne]
      exact sfnGuard_head n0
  · exact sfnGuard_head n0

theorem sanitizeNamePart_ne_nil (n0 : Str) (e : Nat) :
    sanitizeNamePart n0 e ≠ [] := by
  unfold sanitizeNamePart
  split
  · decide
  · next h7 => simpa [List.isEmpty_iff] using h7

theorem sanitizeNamePart_head (n0 : Str) (e : Nat) :
    (sanitizeNamePart n0 e).head? ≠ some '.' := by
  unfold sanitizeNamePart
  split
  · decide
  · exact sfnTrunc_head n0 e

theorem sfnTrunc_length (n0 : Str) {e : Nat} (he : e ≤ 146)
    (h : ((sfnGuard n0).length : Int) > 150 - (e : Int)) :
    (sfnTrunc n0 e).length ≤ 150 - e := by
  unfold sfnTrunc
  simp only
  rw [if_pos h]
  have h1 : (rstripSet (str "_") (pySliceTo (sfnGuard n0) (150 - (e : Int)))).length
      ≤ (pySliceTo (sfnGuard n0) (150 - (e : Int))).length :=
    (rstripSet_isPrefix _ _).length_le
  have h2 : (pySliceTo (sfnGuard n0) (150 - (e : Int))).length
      ≤ ((150 : Int) - (e : Int)).toNat := by
    unfold pySliceTo
    rw [if_pos (by omega : (0 : Int) ≤ 150 - (e : Int))]
    simp [List.length_take_le]
  omega

theorem sanitizeNamePart_length (n0 : Str) {e : Nat} (he : e ≤ 146) :
    (sanitizeNamePart n0 e).length ≤ max (150 - e) 8 := by
  unfold sanitizeNamePart
  split
  · have : (str "untitled").length = 8 := by decide
    omega
  · by_cases htr : ((sfnGuard n0).length : Int) > 150 - (e : Int)
    · have := sfnTrunc_length n0 he htr
      omega
    · have heq : sfnTrunc n0 e = sfnGuard n0 := by
        unfold sfnTrunc
        simp only
        rw [if_neg htr]
      rw [heq]
      omega

set_option maxRecDepth 16384 in
/-- C6, claim as stated is false.  `sanitize_filename` never sanitizes
the extension part returned by `splitext`: for the input `"a.b<c"` the
forbidden character `<` survives into the result, and an overlong extension
(`"a."` followed by 151 `b`s) yields a 160-character result, above the
claimed 154-character cap. -/
theorem c6_filename_safety_counterexample :
    '<' ∈ sanitizeFilename (str "a.b<c") ∧
    154 < (sanitizeFilename (str "a." ++ List.replicate 151 'b')).length := by
  constructor
  · decide
  · decide

/-- C6 (amended).  For every input string, `sanitize_filename` returns a
non-empty name that does not start with `.`; and provided the extension part
split off by `splitext` contains none of the forbidden characters
`< > : " / \ | ? *` (respectively, is at most 146 characters long), the
result contains none of the forbidden characters (respectively, has length
at most 154).  The name part is always fully sanitized; the extension is
appended unsanitized, and the only extension arising in the pipeline is the
safe `".md"`. -/
theorem c6_filename_safety (f : Str) :
    sanitizeFilename f ≠ [] ∧
    (sanitizeFilename f).head? ≠ some '.' ∧
    ((∀ c ∈ (splitext f).2, INVALID_CHARS.contains c = false) →
      ∀ c ∈ sanitizeFilename f, INVALID_CHARS.contains c = false) ∧
    ((splitext f).2.length ≤ 146 → (sanitizeFilename f).length ≤ 154) := by
  by_cases hemp : f.isEmpty = true
  · have hf : f = [] := by simpa [List.isEmpty_iff] using hemp
    subst hf
    refine ⟨by decide, by decide, fun _ => by decide, fun _ => by decide⟩
  · unfold sanitizeFilename
    rw [if_neg hemp]
    simp only
    set ext := if (splitext f).2.isEmpty then str ".md" else (splitext f).2 with hext
    obtain ⟨c, t, hct⟩ := List.exists_cons_of_ne_nil
      (sanitizeNamePart_ne_nil (splitext f).1 ext.length)
    refine ⟨by simp [hct], ?_, ?_, ?_⟩
    · rw [hct]
      have hc : c ≠ '.' := by
        intro hc
        apply sanitizeNamePart_head (splitext f).1 ext.length
        rw [hct, hc]
        rfl
      simpa using hc
    · intro hsafe d hd
      rcases List.mem_append.1 hd with hd' | hd'
      · exact mem_sanitizeNamePart hd'
      · rw [hext] at hd'
        by_cases h2 : (splitext f).2.isEmpty = true
        · rw [if_pos h2] at hd'
          revert hd'
          have : ∀ c ∈ str ".md", INVALID_CHARS.contains c = false := by decide
          exact this d
        · rw [if_neg h2] at hd'
          exact hsafe d hd'
    · intro hlen
      have hextlen : ext.length ≤ 146 := by
        rw [hext]
        by_cases h2 : (splitext f).2.isEmpty = true
        · rw [if_pos h2]; decide
        · rw [if_neg h2]; exact hlen
      have h1 := sanitizeNamePart_length (splitext f).1 hextlen
      rw [List.length_append]
      omega

/-- Witness for `c6_filename_safety` at the concrete input
`"Report 2024: Q1/Q2.md"`, with both hypotheses discharged by computation. -/
theorem c6_filename_safety_witness :
    sanitizeFilename (str "Report 2024: Q1/Q2.md") ≠ [] ∧
    (sanitizeFilename (str "Report 2024: Q1/Q2.md")).head? ≠ some '.' ∧
    (∀ c ∈ sanitizeFilename (str "Report 2024: Q1/Q2.md"),
      INVALID_CHARS.contains c = false) ∧
    (sanitizeFilename (str "Report 2024: Q1/Q2.md")).length ≤ 154 :=
  ⟨(c6_filename_safety _).1, (c6_filename_safety _).2.1,
   (c6_filename_safety _).2.2.1 (by decide), (c6_filename_safety _).2.2.2 (by decide)⟩

/-! ## `extractor.PPTXExtractor` keyword tables and detectors
(src/src/extractor.py) -/

/-- Model of `PPTXExtractor.MODULE_MARKERS`: keywords whose presence in a lowered
title marks a module start. -/
def MODULE_MARKERS : List Str :=
  [str "module", str "section", str "chapter", str "unit", str "lesson",
   str "part", str "topic", str "agenda", str "overview",
   str "phase", str "step", str "stage", str "milestone", str "objective",
   str "demo", str "workshop", str "session",
   str "lab", str "exercise", str "hands-on", str "practice", str "activity",
   str "scenario", str "case study",
   str "walkthrough", str "tutorial", str "deep dive", str "checkpoint"]

/-- The keyword alternatives of the first two `MODULE_NUMBER_PATTERNS`
(`module|section|chapter|unit|lesson|part|topic|phase|step`). -/
def MODULE_NUMBER_KEYWORDS : List Str :=
  [str "module", str "section", str "chapter", str "unit", str "lesson",
   str "part", str "topic", str "phase", str "step"]

/-- Match of regex `(?:module|...|step)\s*\d+` at the start of `t`. -/
def kwWsNumAt (kws : List Str) (t : Str) : Bool :=
  kws.any fun kw =>
    kw.isPrefixOf t &&
      match (t.drop kw.length).dropWhile isWsC with
      | c :: _ => isDigitC c
      | [] => false

/-- Match of regex `\d+\.\s*(?:module|...|step)` at the start of `t`. -/
def numDotKwAt (kws : List Str) (t : Str) : Bool :=
  let ds := t.takeWhile isDigitC
  !ds.isEmpty &&
    match t.drop ds.length with
    | '.' :: r => kws.any (·.isPrefixOf (r.dropWhile isWsC))
    | _ => false

/-- Match of regex `(?:step|phase)\s+[ivx]+` at the start of `t`. -/
def stepRomanAt (t : Str) : Bool :=
  [str "step", str "phase"].any fun kw =>
    kw.isPrefixOf t &&
      (let r := t.drop kw.length
       let ws := r.takeWhile isWsC
       !ws.isEmpty &&
         match r.drop ws.length with
         | c :: _ => c = 'i' || c = 'v' || c = 'x'
         | [] => false)

/-- Match of regex `^\d+[\.\)]\s+` (anchored at the string start). -/
def numDotParenStart (t : Str) : Bool :=
  let ds := t.takeWhile isDigitC
  !ds.isEmpty &&
    match t.drop ds.length with
    | c :: c2 :: _ => (c = '.' || c = ')') && isWsC c2
    | _ => false

/-- Model of `re.search(pat, t)` for a pattern matcher `p` applied at each suffix. -/
def searchAt (p : Str → Bool) (t : Str) : Bool :=
  (List.range (t.length + 1)).any fun i => p (t.drop i)

/-- Model of `any(re.search(pattern, title_lower) for pattern in
MODULE_NUMBER_PATTERNS)` — the four numbered-unit regexes of the
extractor, in source order. -/
def matchesModuleNumberPatterns (t : Str) : Bool :=
  searchAt (kwWsNumAt MODULE_NUMBER_KEYWORDS) t ||
  searchAt (numDotKwAt MODULE_NUMBER_KEYWORDS) t ||
  searchAt stepRomanAt t ||
  numDotParenStart t

/-- Model of `module_content_indicators` of `_is_module_start` (the course-outline
phrase set). -/
def MODULE_CONTENT_INDICATORS : List Str :=
  [str "learning objectives", str "what you will learn", str "in this module",
   str "module overview", str "objectives:", str "goals:", str "by the end",
   str "after completing", str "you will be able", str "agenda", str "outline",
   str "topics covered"]

/-- Match of regex `kw\s+\d+` (mandatory whitespace) at the start of `t`. -/
def kwWsNumAt2 (kw : Str) (t : Str) : Bool :=
  kw.isPrefixOf t &&
    (let r := t.drop kw.length
     let ws := r.takeWhile isWsC
     !ws.isEmpty &&
       match r.drop ws.length with
       | c :: _ => isDigitC c
       | [] => false)

/-- Match of regex `wrap.?up` at the start of `t`. -/
def wrapUpAt (t : Str) : Bool :=
  (str "wrapup").isPrefixOf t ||
  ((str "wrap").isPrefixOf t && (str "up").isPrefixOf (t.drop 5))

/-- The `section_patterns` regex list of `_is_module_start`:
`part\s+\d+`, `section\s+\d+`, `chapter\s+\d+`, plus the literal patterns
and `wrap.?up`. -/
def sectionDividerMatch (t : Str) : Bool :=
  searchAt (kwWsNumAt2 (str "part")) t ||
  searchAt (kwWsNumAt2 (str "section")) t ||
  searchAt (kwWsNumAt2 (str "chapter")) t ||
  containsSub (str "introduction") t ||
  containsSub (str "getting started") t ||
  containsSub (str "overview") t ||
  containsSub (str "conclusion") t ||
  containsSub (str "summary") t ||
  searchAt wrapUpAt t

/-- Model of `PPTXExtractor._is_module_start`, step for step: falsy titles
(`None` or the empty string — Python truthiness of `if not title`) are
rejected up front; then the lowered/stripped title is tested against the
module keyword set and the numbered-unit regexes; then the joined lowered
body content against the course-outline phrases; finally a short title with
short body is tested against the section-divider patterns. -/
def isModuleStart (title : Option Str) (content : List Str) : Bool :=
  match title with
  | none => false
  | some ti =>
    if ti.isEmpty then false else
    let titleLower := stripWs (lowerStr ti)
    if MODULE_MARKERS.any (fun m => containsSub m titleLower) then true
    else if matchesModuleNumberPatterns titleLower then true
    else
      let allText := lowerStr (joinSp content)
      if MODULE_CONTENT_INDICATORS.any (fun m => containsSub m allText) then true
      else if wordCount titleLower ≤ 5 && allText.length < 100 then
        sectionDividerMatch titleLower
      else false

/-- The module-start rule exactly as the specification sentence words it:
the body-content course-outline test is an independent disjunct, not gated
on the title being present. -/
def claimModuleStart (title : Option Str) (content : List Str) : Bool :=
  let allText := lowerStr (joinSp content)
  (match title with
   | none => false
   | some ti =>
     let titleLower := stripWs (lowerStr ti)
     MODULE_MARKERS.any (fun m => containsSub m titleLower) ||
     matchesModuleNumberPatterns titleLower ||
     (wordCount titleLower ≤ 5 && allText.length < 100 &&
       sectionDividerMatch titleLower)) ||
  MODULE_CONTENT_INDICATORS.any (fun m => containsSub m allText)

/-- The module-start rule as the specification words it, amended with the
title gate the code actually applies: a slide with no title — or an
empty-string title, both falsy under `if not title` — is never a module
start, and all four disjuncts (including the body-content test) are only
consulted when a truthy title exists. -/
def specModuleStart (title : Option Str) (content : List Str) : Bool :=
  match title with
  | none => false
  | some ti =>
    if ti.isEmpty then false else
    let titleLower := stripWs (lowerStr ti)
    let allText := lowerStr (joinSp content)
    MODULE_MARKERS.any (fun m => containsSub m titleLower) ||
    matchesModuleNumberPatterns titleLower ||
    MODULE_CONTENT_INDICATORS.any (fun m => containsSub m allText) ||
    (wordCount titleLower ≤ 5 && allText.length < 100 &&
      sectionDividerMatch titleLower)

/-- C4, claim as stated is false.  A slide with no title whose body
contains the course-outline phrase `"agenda"` is not detected as a module
start by `_is_module_start` (the `if not title: return False` guard fires
first), although the claimed rule makes it one. -/
theorem c4_module_start_counterexample :
    isModuleStart none [str "agenda"] = false ∧
    claimModuleStart none [str "agenda"] = true := by
  constructor
  · rfl
  · decide

/-- C4 (amended).  For every slide that has a non-empty title, module-start
detection returns true exactly when the title contains a module keyword, OR
the title matches a numbered-unit regex, OR the body content contains a
course-outline phrase, OR the title is short (at most 5 words), the body is
short (under 100 characters) and the title matches a section-divider
pattern; a slide with no title or an empty-string title is never a module
start. -/
theorem c4_module_start (title : Option Str) (content : List Str) :
    isModuleStart title content = specModuleStart title content := by
  cases title with
  | none => rfl
  | some ti =>
    unfold isModuleStart specModuleStart
    simp only
    by_cases hemp : ti.isEmpty = true
    · rw [if_pos hemp, if_pos hemp]
    · rw [if_neg hemp, if_neg hemp]
      split_ifs with h1 h2 h3 h4 <;> simp_all

/-- Model of `PPTXExtractor.ACTIVITY_MARKERS`: the ordered keyword-to-tag table
(CPython dict iteration order = insertion order). -/
def ACTIVITY_MARKERS : List (Str × Str) :=
  [(str "lab", str "hands-on-lab"),
   (str "exercise", str "guided-exercise"),
   (str "practice", str "practice-session"),
   (str "demo", str "demonstration"),
   (str "demonstration", str "demonstration"),
   (str "try it", str "hands-on-activity"),
   (str "hands-on", str "hands-on-activity"),
   (str "activity", str "learning-activity"),
   (str "assignment", str "assignment"),
   (str "quiz", str "knowledge-check"),
   (str "test", str "assessment"),
   (str "assessment", str "formal-assessment"),
   (str "review", str "knowledge-review"),
   (str "troubleshooting", str "troubleshooting-scenario"),
   (str "case study", str "case-study"),
   (str "scenario", str "scenario-based-learning"),
   (str "best practice", str "best-practices"),
   (str "real world", str "real-world-application"),
   (str "certification", str "certification-prep")]

/-- Model of `PPTXExtractor._detect_activity_type`: falsy titles (`None` or
the empty string — Python truthiness of `if not title`) are rejected up
front; otherwise the first marker (in table order) found in the lowered
title or in the joined lowered body content determines the tag. -/
def detectActivityType (title : Option Str) (content : List Str) : Option Str :=
  match title with
  | none => none
  | some ti =>
    if ti.isEmpty then none else
    let titleLower := lowerStr ti
    let allContent := lowerStr (joinSp content)
    (ACTIVITY_MARKERS.find? fun mt =>
      containsSub mt.1 titleLower || containsSub mt.1 allContent).map (·.2)

/-- C10 (confirmed).  For every slide whose title is absent,
activity-type detection returns `None` even when the body content contains
an activity keyword; body keywords are only consulted when a title exists
(witnessed by a titled slide whose only keyword, `"lab"`, sits in the
body). -/
theorem c10_activity_null_title :
    (∀ content : List Str, detectActivityType none content = none) ∧
    detectActivityType none [str "lab"] = none ∧
    detectActivityType (some (str "Untitled")) [str "lab"] =
      some (str "hands-on-lab") := by
  refine ⟨fun content => rfl, rfl, by decide⟩

/-! ## Slide data model (src/src/extractor.py `SlideData`) -/

/-- The `structured_content` dict of a slide: preserved list structure
(each item `{level, text}`), emphasized text, headings and layout
sections. -/
structure StructuredContent where
  lists : List (List (Nat × Str))
  emphasized_text : List Str
  headings : List Str
  layout_sections : List Str
deriving DecidableEq

/-- One `assessment_items` entry `{type, content, format}`. -/
structure AssessmentItem where
  kind : Str
  content : Str
  format : Str
deriving DecidableEq

/-- Model of `extractor.SlideData`: the normalized per-slide record consumed by the
formatter.  `code_blocks` entries are `(language, code)` pairs,
`visual_elements` entries are `(type, description)` pairs, and
`instructor_notes` is the category-to-notes dict as an ordered association
list. -/
structure SlideData where
  slide_number : Nat
  title : Option Str
  content : List Str
  speaker_notes : Str
  code_blocks : List (Str × Str)
  is_module_start : Bool
  learning_objectives : List Str
  activity_type : Option Str
  instructor_notes : List (Str × List Str)
  prerequisites : List Str
  difficulty_level : Str
  estimated_time : Nat
  visual_elements : List (Str × Str)
  structured_content : StructuredContent
  assessment_items : List AssessmentItem
  compliance_markers : List Str
  slide_layout_type : Str
deriving DecidableEq

/-- Fixture helper: a slide with the given number, title, content, activity
type and module-start flag, all other fields neutral. -/
def baseSlide (n : Nat) (title : Option Str) (content : List Str)
    (activity : Option Str) (isMod : Bool) : SlideData where
  slide_number := n
  title := title
  content := content
  speaker_notes := []
  code_blocks := []
  is_module_start := isMod
  learning_objectives := []
  activity_type := activity
  instructor_notes := []
  prerequisites := []
  difficulty_level := str "beginner"
  estimated_time := 2
  visual_elements := []
  structured_content := ⟨[], [], [], []⟩
  assessment_items := []
  compliance_markers := []
  slide_layout_type := str "standard-content"

/-! ## `formatter.MarkdownFormatter` chunking (src/src/formatter.py) -/

/-- Model of `MarkdownFormatter._estimate_chunk_tokens`, fallback branch (no
`tiktoken` encoder): total characters of title, content blocks and speaker
notes, divided by 4.  The `tiktoken` branch delegates to an external BPE
tokenizer; the chunkers below therefore take the estimator as an explicit
parameter and every token-sensitive theorem is stated either for all
estimators or for this modelled one. -/
def estimateChunkTokens (slides : List SlideData) : Nat :=
  (slides.foldl (fun acc s =>
    acc + (match s.title with | some t => t.length | none => 0)
        + (s.content.foldl (fun a c => a + c.length) 0)
        + s.speaker_notes.length) 0) / 4

/-- The loop condition of `_find_break_point` at index `j`:
`slides[j].activity_type` is truthy (present and non-empty, Python
truthiness) and differs from `slides[j-1].activity_type`. -/
def breakCondAt (slides : List SlideData) (j : Nat) : Bool :=
  match slides.get? j, slides.get? (j - 1) with
  | some sj, some sp =>
    (match sj.activity_type with
     | some a => !a.isEmpty
     | none => false) && sj.activity_type ≠ sp.activity_type
  | _, _ => false

/-- The descending scan `for i in range(len(slides) - 1, 0, -1)` of
`_find_break_point`: try indices `n, n-1, ..., 1`. -/
def scanBreak (slides : List SlideData) : Nat → Option Nat
  | 0 => none
  | i + 1 => if breakCondAt slides (i + 1) then some (i + 1) else scanBreak slides i

/-- Model of `MarkdownFormatter._find_break_point`.  The fallback
`max(1, int(len(slides) * 0.75))` is `max 1 (3 * len / 4)`: `len * 0.75`
is exact in binary floating point for every list length arising here, and
`int` truncates toward zero. -/
def findBreakPoint (slides : List SlideData) : Nat :=
  match scanBreak slides (slides.length - 1) with
  | some i => i
  | none => max 1 ((3 * slides.length) / 4)

/-- Model of `MarkdownFormatter._chunk_by_instructional_patterns`, as the list of
`(group, module_title, module_number)` triples in emission order; the loop
state is the accumulated group, the current module title and the module
counter.  (`slide.title or f"Module {n}"` falls through on `None` and on
the empty string — Python truthiness.) -/
def instrGo (est : List SlideData → Nat) (budget : Nat)
    (current : List SlideData) (title : Str) (counter : Nat) :
    List SlideData → List (List SlideData × Str × Nat)
  | [] => if current.isEmpty then [] else [(current, title, counter)]
  | s :: rest =>
    if s.is_module_start && !current.isEmpty then
      (current, title, counter) ::
        instrGo est budget [s]
          (match s.title with
           | some t => if t.isEmpty then str "Module " ++ natToStr (counter + 1) else t
           | none => str "Module " ++ natToStr (counter + 1))
          (counter + 1) rest
    else
      let cur := current ++ [s]
      if est cur > budget then
        (cur.take (findBreakPoint cur), title, counter) ::
          instrGo est budget (cur.drop (findBreakPoint cur))
            (str "Module " ++ natToStr (counter + 1) ++ str " (Continued)")
            (counter + 1) rest
      else instrGo est budget cur title counter rest

/-- Entry point of the instructional chunker (initial state: empty group,
title `"Introduction"`, counter 1). -/
def chunkByInstructional (est : List SlideData → Nat) (budget : Nat)
    (slides : List SlideData) : List (List SlideData × Str × Nat) :=
  instrGo est budget [] (str "Introduction") 1 slides

/-- Model of `MarkdownFormatter._chunk_by_modules`: identical to the instructional
chunker but without the token-budget early break. -/
def moduleGo (current : List SlideData) (title : Str) (counter : Nat) :
    List SlideData → List (List SlideData × Str × Nat)
  | [] => if current.isEmpty then [] else [(current, title, counter)]
  | s :: rest =>
    if s.is_module_start && !current.isEmpty then
      (current, title, counter) ::
        moduleGo [s]
          (match s.title with
           | some t => if t.isEmpty then str "Module " ++ natToStr (counter + 1) else t
           | none => str "Module " ++ natToStr (counter + 1))
          (counter + 1) rest
    else moduleGo (current ++ [s]) title counter rest

/-- Entry point of the module-based chunker. -/
def chunkByModules (slides : List SlideData) : List (List SlideData × Str × Nat) :=
  moduleGo [] (str "Introduction") 1 slides

/-- Model of `MarkdownFormatter._chunk_sequentially`: append each slide; when the
estimate of the accumulated group exceeds the budget, emit the group
without the overflowing slide (if non-empty) and restart from that slide.
Titles are `f"Section {chunk_counter}"`. -/
def seqGo (est : List SlideData → Nat) (budget : Nat)
    (current : List SlideData) (counter : Nat) :
    List SlideData → List (List SlideData × Str × Nat)
  | [] => if current.isEmpty then []
          else [(current, str "Section " ++ natToStr counter, counter)]
  | s :: rest =>
    if est (current ++ [s]) > budget then
      if current.isEmpty then seqGo est budget [s] counter rest
      else (current, str "Section " ++ natToStr counter, counter) ::
        seqGo est budget [s] (counter + 1) rest
    else seqGo est budget (current ++ [s]) counter rest

/-- Entry point of the sequential chunker. -/
def chunkSequentially (est : List SlideData → Nat) (budget : Nat)
    (slides : List SlideData) : List (List SlideData × Str × Nat) :=
  seqGo est budget [] 1 slides

/-- The strategy dispatch of `MarkdownFormatter.format`: `'instructional'`,
`'module-based'`, anything else falls through to sequential. -/
def chunkTriples (strategy : String) (est : List SlideData → Nat) (budget : Nat)
    (slides : List SlideData) : List (List SlideData × Str × Nat) :=
  if strategy = "instructional" then chunkByInstructional est budget slides
  else if strategy = "module-based" then chunkByModules slides
  else chunkSequentially est budget slides

/-! ### Partition and non-emptiness of the chunkers (C1) -/

theorem scanBreak_pos {slides : List SlideData} :
    ∀ {n i}, scanBreak slides n = some i → 1 ≤ i := by
  intro n
  induction n with
  | zero => intro i h; simp [scanBreak] at h
  | succ m ih =>
    intro i h
    unfold scanBreak at h
    split at h
    · cases h; omega
    · exact ih h

theorem findBreakPoint_pos (slides : List SlideData) : 1 ≤ findBreakPoint slides := by
  unfold findBreakPoint
  split
  · next h => exact scanBreak_pos h
  · exact Nat.le_max_left 1 _

theorem take_ne_nil_of_pos {l : List SlideData} {n : Nat} (hl : l ≠ [])
    (hn : 1 ≤ n) : l.take n ≠ [] := by
  intro h
  have := congrArg List.length h
  simp [List.length_take] at this
  rcases this with h' | h'
  · omega
  · exact hl h'

theorem instrGo_join (est : List SlideData → Nat) (b : Nat) :
    ∀ (l cur : List SlideData) (ti : Str) (k : Nat),
      ((instrGo est b cur ti k l).map (·.1)).flatten = cur ++ l := by
  intro l
  induction l with
  | nil =>
    intro cur ti k
    by_cases hc : cur.isEmpty
    · have : cur = [] := List.isEmpty_iff.mp hc
      simp [instrGo, hc, this]
    · simp [instrGo, hc]
  | cons s rest ih =>
    intro cur ti k
    unfold instrGo
    by_cases h1 : (s.is_module_start && !cur.isEmpty) = true
    · rw [if_pos h1]
      simp [ih]
    · rw [if_neg h1]
      simp only
      by_cases h2 : est (cur ++ [s]) > b
      · rw [if_pos h2]
        simp only [List.map_cons, List.flatten_cons, ih]
        rw [← List.append_assoc, List.take_append_drop]
        simp
      · rw [if_neg h2]
        rw [ih]
        simp

theorem moduleGo_join :
    ∀ (l cur : List SlideData) (ti : Str) (k : Nat),
      ((moduleGo cur ti k l).map (·.1)).flatten = cur ++ l := by
  intro l
  induction l with
  | nil =>
    intro cur ti k
    by_cases hc : cur.isEmpty
    · have : cur = [] := List.isEmpty_iff.mp hc
      simp [moduleGo, hc, this]
    · simp [moduleGo, hc]
  | cons s rest ih =>
    intro cur ti k
    unfold moduleGo
    by_cases h1 : (s.is_module_start && !cur.isEmpty) = true
    · rw [if_pos h1]
      simp [ih]
    · rw [if_neg h1]
      rw [ih]
      simp

theorem seqGo_join (est : List SlideData → Nat) (b : Nat) :
    ∀ (l cur : List SlideData) (k : Nat),
      ((seqGo est b cur k l).map (·.1)).flatten = cur ++ l := by
  intro l
  induction l with
  | nil =>
    intro cur k
    by_cases hc : cur.isEmpty
    · have : cur = [] := List.isEmpty_iff.mp hc
      simp [seqGo, hc, this]
    · simp [seqGo, hc]
  | cons s rest ih =>
    intro cur k
    unfold seqGo
    by_cases h2 : est (cur ++ [s]) > b
    · rw [if_pos h2]
      by_cases hc : cur.isEmpty
      · have hc' : cur = [] := List.isEmpty_iff.mp hc
        rw [if_pos hc]
        rw [ih]
        simp [hc']
      · rw [if_neg hc]
        simp [ih]
    · rw [if_neg h2]
      rw [ih]
      simp

theorem instrGo_ne_nil (est : List SlideData → Nat) (b : Nat) :
    ∀ (l cur : List SlideData) (ti : Str) (k : Nat) (g : List SlideData),
      g ∈ (instrGo est b cur ti k l).map (·.1) → g ≠ [] := by
  intro l
  induction l with
  | nil =>
    intro cur ti k g hg
    by_cases hc : cur.isEmpty
    · simp [instrGo, hc] at hg
    · simp [instrGo, hc] at hg
      subst hg
      simpa [List.isEmpty_iff] using hc
  | cons s rest ih =>
    intro cur ti k g hg
    unfold instrGo at hg
    by_cases h1 : (s.is_module_start && !cur.isEmpty) = true
    · rw [if_pos h1] at hg
      simp only [List.map_cons, List.mem_cons] at hg
      rcases hg with rfl | hg
      · intro hnil
        subst hnil
        simp at h1
      · exact ih _ _ _ _ hg
    · rw [if_neg h1] at hg
      simp only at hg
      by_cases h2 : est (cur ++ [s]) > b
      · rw [if_pos h2] at hg
        simp only [List.map_cons, List.mem_cons] at hg
        rcases hg with rfl | hg
        · exact take_ne_nil_of_pos (by simp) (findBreakPoint_pos _)
        · exact ih _ _ _ _ hg
      · rw [if_neg h2] at hg
        exact ih _ _ _ _ hg

theorem moduleGo_ne_nil :
    ∀ (l cur : List SlideData) (ti : Str) (k : Nat) (g : List SlideData),
      g ∈ (moduleGo cur ti k l).map (·.1) → g ≠ [] := by
  intro l
  induction l with
  | nil =>
    intro cur ti k g hg
    by_cases hc : cur.isEmpty
    · simp [moduleGo, hc] at hg
    · simp [moduleGo, hc] at hg
      subst hg
      simpa [List.isEmpty_iff] using hc
  | cons s rest ih =>
    intro cur ti k g hg
    unfold moduleGo at hg
    by_cases h1 : (s.is_module_start && !cur.isEmpty) = true
    · rw [if_pos h1] at hg
      simp only [List.map_cons, List.mem_cons] at hg
      rcases hg with rfl | hg
      · intro hnil
        subst hnil
        simp at h1
      · exact ih _ _ _ _ hg
    · rw [if_neg h1] at hg
      exact ih _ _ _ _ hg

theorem seqGo_ne_nil (est : List SlideData → Nat) (b : Nat) :
    ∀ (l cur : List SlideData) (k : Nat) (g : List SlideData),
      g ∈ (seqGo est b cur k l).map (·.1) → g ≠ [] := by
  intro l
  induction l with
  | nil =>
    intro cur k g hg
    by_cases hc : cur.isEmpty
    · simp [seqGo, hc] at hg
    · simp [seqGo, hc] at hg
      subst hg
      simpa [List.isEmpty_iff] using hc
  | cons s rest ih =>
    intro cur k g hg
    unfold seqGo at hg
    by_cases h2 : est (cur ++ [s]) > b
    · rw [if_pos h2] at hg
      by_cases hc : cur.isEmpty
      · rw [if_pos hc] at hg
        exact ih _ _ _ hg
      · rw [if_neg hc] at hg
        simp only [List.map_cons, List.mem_cons] at hg
        rcases hg with rfl | hg
        · intro hnil
          subst hnil
          simp at hc
        · exact ih _ _ _ hg
    · rw [if_neg h2] at hg
      exact ih _ _ _ hg

/-- C1 (confirmed).  For every input slide sequence, every strategy
string (the three named strategies and, by the dispatch fall-through, any
other) and every token estimator and budget, the chunker's groups are a
partition of the input: their in-order concatenation is exactly the input
sequence (no gaps, no overlaps, no loss, order preserved) and every group
is non-empty and contiguous. -/
theorem c1_chunker_partition (strategy : String) (est : List SlideData → Nat)
    (budget : Nat) (slides : List SlideData) :
    (((chunkTriples strategy est budget slides).map (·.1)).flatten = slides) ∧
    (∀ g ∈ (chunkTriples strategy est budget slides).map (·.1), g ≠ []) := by
  unfold chunkTriples chunkByInstructional chunkByModules chunkSequentially
  split_ifs with h1 h2
  · exact ⟨by simpa using instrGo_join est budget slides [] (str "Introduction") 1,
      fun g hg => instrGo_ne_nil est budget slides [] (str "Introduction") 1 g hg⟩
  · exact ⟨by simpa using moduleGo_join slides [] (str "Introduction") 1,
      fun g hg => moduleGo_ne_nil slides [] (str "Introduction") 1 g hg⟩
  · exact ⟨by simpa using seqGo_join est budget slides [] 1,
      fun g hg => seqGo_ne_nil est budget slides [] 1 g hg⟩

/-! ### Sequential strategy semantics (C2) -/

/-- Character weight of one slide in the fallback token estimate. -/
def slideChars (s : SlideData) : Nat :=
  (match s.title with | some t => t.length | none => 0)
    + (s.content.foldl (fun a c => a + c.length) 0)
    + s.speaker_notes.length

theorem foldl_add_eq_sum (f : SlideData → Nat) :
    ∀ (l : List SlideData) (a : Nat),
      l.foldl (fun acc s => acc + f s) a = a + (l.map f).sum := by
  intro l
  induction l with
  | nil => intro a; simp
  | cons s rest ih =>
    intro a
    simp [List.foldl_cons, ih]
    omega

theorem estimateChunkTokens_eq (slides : List SlideData) :
    estimateChunkTokens slides = (slides.map slideChars).sum / 4 := by
  unfold estimateChunkTokens
  rw [show (fun (acc : Nat) (s : SlideData) =>
      acc + (match s.title with | some t => t.length | none => 0)
          + (s.content.foldl (fun a c => a + c.length) 0)
          + s.speaker_notes.length) =
      (fun acc s => acc + slideChars s) from ?_]
  · rw [foldl_add_eq_sum]
    simp
  · funext acc s
    unfold slideChars
    omega

/-- The fallback character estimator is monotone under list extension on
either side. -/
theorem estimateChunkTokens_mono (pre mid suf : List SlideData) :
    estimateChunkTokens mid ≤ estimateChunkTokens (pre ++ mid ++ suf) := by
  rw [estimateChunkTokens_eq, estimateChunkTokens_eq]
  apply Nat.div_le_div_right
  simp only [List.map_append, List.sum_append]
  omega

/-- Whenever the running group holds exactly one over-budget slide, that
slide is emitted as a singleton group. -/
theorem seqGo_single_big (est : List SlideData → Nat) (b : Nat)
    (hmono : ∀ pre mid suf, est mid ≤ est (pre ++ mid ++ suf))
    (s : SlideData) (hbig : b < est [s]) :
    ∀ (rest : List SlideData) (k : Nat),
      [s] ∈ (seqGo est b [s] k rest).map (·.1) := by
  intro rest
  induction rest with
  | nil =>
    intro k
    simp [seqGo]
  | cons t rest' ih =>
    intro k
    unfold seqGo
    have hmon := hmono [] [s] [t]
    simp only [List.nil_append, List.singleton_append] at hmon
    rw [if_pos (show est ([s] ++ [t]) > b by simpa using (by omega : b < est [s, t]))]
    rw [if_neg (by simp : ¬ ([s] : List SlideData).isEmpty = true)]
    simp

/-- Every over-budget slide of the input ends its group and becomes a
singleton group, regardless of the surrounding slides. -/
theorem seqGo_mem_big (est : List SlideData → Nat) (b : Nat)
    (hmono : ∀ pre mid suf, est mid ≤ est (pre ++ mid ++ suf)) :
    ∀ (l cur : List SlideData) (k : Nat) (s : SlideData),
      s ∈ l → b < est [s] → [s] ∈ (seqGo est b cur k l).map (·.1) := by
  intro l
  induction l with
  | nil => intro cur k s hs; simp at hs
  | cons t rest ih =>
    intro cur k s hs hbig
    rcases List.mem_cons.1 hs with rfl | hs'
    · unfold seqGo
      have hover : est (cur ++ [s]) > b := by
        have := hmono cur [s] []
        simp at this
        omega
      rw [if_pos hover]
      by_cases hc : cur.isEmpty
      · rw [if_pos hc]
        exact seqGo_single_big est b hmono s hbig rest k
      · rw [if_neg hc]
        simp only [List.map_cons, List.mem_cons]
        exact Or.inr (seqGo_single_big est b hmono s hbig rest (k + 1))
    · unfold seqGo
      by_cases h2 : est (cur ++ [t]) > b
      · rw [if_pos h2]
        by_cases hc : cur.isEmpty
        · rw [if_pos hc]
          exact ih _ _ _ hs' hbig
        · rw [if_neg hc]
          simp only [List.map_cons, List.mem_cons]
          exact Or.inr (ih _ _ _ hs' hbig)
      · rw [if_neg h2]
        exact ih _ _ _ hs' hbig

/-- C2 (confirmed).  Under the sequential strategy, for every
prepend/append-monotone token estimator: (1) no emitted group is empty;
(2) an empty input yields an empty output; (3) each step either accumulates
(estimate within budget) or emits the group without the overflowing slide
and restarts from that slide — exactly the code's recurrence; and (4) a
slide whose own estimate exceeds the budget always becomes a group by
itself, never split. -/
theorem c2_sequential (est : List SlideData → Nat) (budget : Nat)
    (slides : List SlideData)
    (hmono : ∀ pre mid suf, est mid ≤ est (pre ++ mid ++ suf)) :
    (∀ g ∈ (chunkSequentially est budget slides).map (·.1), g ≠ []) ∧
    chunkSequentially est budget [] = [] ∧
    (∀ (cur : List SlideData) (k : Nat) (s : SlideData) (rest : List SlideData),
      (budget < est (cur ++ [s]) →
        seqGo est budget cur k (s :: rest) =
          (if cur.isEmpty then [] else
            [(cur, str "Section " ++ natToStr k, k)]) ++
          seqGo est budget [s] (if cur.isEmpty then k else k + 1) rest) ∧
      (est (cur ++ [s]) ≤ budget →
        seqGo est budget cur k (s :: rest) =
          seqGo est budget (cur ++ [s]) k rest)) ∧
    (∀ s ∈ slides, budget < est [s] →
      [s] ∈ (chunkSequentially est budget slides).map (·.1)) := by
  refine ⟨fun g hg => seqGo_ne_nil est budget slides [] 1 g hg, rfl, ?_, ?_⟩
  · intro cur k s rest
    constructor
    · intro hover
      conv_lhs => unfold seqGo
      rw [if_pos hover]
      by_cases hc : cur.isEmpty
      · rw [if_pos hc, if_pos hc, if_pos hc]
        simp
      · rw [if_neg hc, if_neg hc, if_neg hc]
        simp
    · intro hin
      conv_lhs => unfold seqGo
      rw [if_neg (by omega : ¬ est (cur ++ [s]) > budget)]
  · intro s hs hbig
    exact seqGo_mem_big est budget hmono slides [] 1 s hs hbig

/-- Fixture: a single slide whose 8 characters of content estimate to 2
tokens. -/
def c2bigSlide : SlideData := baseSlide 1 none [str "aaaaaaaa"] none false

/-- Witness for `c2_sequential`: at the concrete estimator, budget 1 and the
single over-budget slide `c2bigSlide`, all hypotheses are discharged and
the slide indeed forms its own group. -/
theorem c2_sequential_witness :
    1 < estimateChunkTokens [c2bigSlide] ∧
    [c2bigSlide] ∈ (chunkSequentially estimateChunkTokens 1 [c2bigSlide]).map (·.1) :=
  ⟨by decide,
   (c2_sequential estimateChunkTokens 1 [c2bigSlide] estimateChunkTokens_mono).2.2.2
     c2bigSlide (by decide) (by decide)⟩

/-! ### Break-point selection (C3) -/

/-- The break condition exactly as the specification sentence words it: the
index's `activity_type` differs from its predecessor's (no requirement that
it be non-null). -/
def claimBreakCondAt (slides : List SlideData) (j : Nat) : Bool :=
  match slides.get? j, slides.get? (j - 1) with
  | some sj, some sp => sj.activity_type ≠ sp.activity_type
  | _, _ => false

/-- Break point as the specification claims it: the last index (scanning
backward from the end) whose `activity_type` differs from its
predecessor's; fallback `max 1 (floor (0.75 * size))`. -/
def claimBreakPoint (slides : List SlideData) : Nat :=
  match ((List.range slides.length).filter (claimBreakCondAt slides)).getLast? with
  | some i => i
  | none => max 1 ((3 * slides.length) / 4)

/-- Break point as the code computes it, restated in the specification's
last-index form: the last index whose `activity_type` is truthy (non-null,
non-empty) and differs from its predecessor's; same fallback. -/
def specBreakPoint (slides : List SlideData) : Nat :=
  match ((List.range slides.length).filter (breakCondAt slides)).getLast? with
  | some i => i
  | none => max 1 ((3 * slides.length) / 4)

theorem breakCondAt_zero (slides : List SlideData) :
    breakCondAt slides 0 = false := by
  unfold breakCondAt
  cases h : slides.get? 0 with
  | none => simp
  | some s => simp

theorem scanBreak_eq (slides : List SlideData) :
    ∀ n, scanBreak slides n =
      ((List.range (n + 1)).filter (breakCondAt slides)).getLast? := by
  intro n
  induction n with
  | zero =>
    simp [scanBreak, List.range_succ, breakCondAt_zero]
  | succ m ih =>
    unfold scanBreak
    rw [List.range_succ, List.filter_append]
    by_cases hc : breakCondAt slides (m + 1) = true
    · rw [if_pos hc]
      simp only [List.filter_cons, hc, if_pos, List.filter_nil]
      rw [List.getLast?_concat]
    · rw [if_neg hc]
      simp only [List.filter_cons, hc, Bool.false_eq_true, if_false, List.filter_nil,
        List.append_nil]
      exact ih

/-- C3 counterexample fixture: a non-empty, over-budget 4-slide group
whose only activity type sits on the first slide, so every backward-scan
index has a null `activity_type`. -/
def c3group : List SlideData :=
  [baseSlide 1 (some (str "A")) [str "aaaaaaaa"] (some (str "hands-on-lab")) false,
   baseSlide 2 none [] none false,
   baseSlide 3 none [] none false,
   baseSlide 4 none [] none false]

/-- C3, claim as stated is false.  On the over-budget group `c3group`
(estimate 2 > budget 0) the claimed rule finds index 1 (`None` differs from
`"hands-on-lab"`), but the code skips indices whose `activity_type` is
null, finds no transition, and falls back to `floor(0.75 * 4) = 3`. -/
theorem c3_break_point_counterexample :
    c3group ≠ [] ∧ 0 < estimateChunkTokens c3group ∧
    findBreakPoint c3group = 3 ∧ claimBreakPoint c3group = 1 := by
  refine ⟨by decide, by decide, by decide, by decide⟩

/-- C3 (amended).  For every slide group, the instructional break point
is the last index, scanning backward from the end, whose `activity_type` is
truthy (non-null and non-empty) AND differs from its predecessor's
`activity_type`; if no such index exists it is `max 1 (floor (0.75 *
group_size))`. -/
theorem c3_break_point (slides : List SlideData) :
    findBreakPoint slides = specBreakPoint slides := by
  unfold findBreakPoint specBreakPoint
  rw [scanBreak_eq]
  cases h : slides.length with
  | zero =>
    simp [List.range_succ, breakCondAt_zero, List.range_zero, h]
  | succ m =>
    simp [h]

/-! ## Chunk creation (`MarkdownFormatter._create_chunk` and helpers) -/

/-- Model of `re.sub(r'[-\s]+', '-', s)`: collapse each run of hyphen/whitespace
characters into a single hyphen. -/
def collapseDash (prev : Bool) : Str → Str
  | [] => []
  | c :: cs =>
    if c = '-' || isWsC c then
      if prev then collapseDash true cs else '-' :: collapseDash true cs
    else c :: collapseDash false cs

/-- Model of `MarkdownFormatter._generate_module_id`: lowercase, strip non-word
characters (`\w`, whitespace and hyphen survive), collapse hyphen/space
runs to one hyphen, strip hyphens, cap at 30 characters without a trailing
hyphen, prefix with the zero-padded module number. -/
def generateModuleId (title : Str) (number : Nat) : Str :=
  let c1 := (lowerStr title).filter fun c => isWordC c || isWsC c || c = '-'
  let c2 := stripSet (str "-") (collapseDash false c1)
  let c3 := if 30 < c2.length then rstripSet (str "-") (c2.take 30) else c2
  natPad2 number ++ str "-" ++ c3

/-- Maximal word-character runs of a string (the candidate matches of the
title-concept regex); the accumulator holds the current run reversed. -/
def wordRunsAux (acc : Option Str) : Str → List Str
  | [] => match acc with | some r => [r.reverse] | none => []
  | c :: cs =>
    if isWordC c then wordRunsAux (some (c :: acc.getD [])) cs
    else match acc with
      | some r => r.reverse :: wordRunsAux none cs
      | none => wordRunsAux none cs

/-- Maximal `\w`-runs of a string. -/
def wordRuns (s : Str) : List Str := wordRunsAux none s

/-- A `\w`-run matches `\b[A-Z][a-z]+(?:[A-Z][a-z]*)*\b` exactly when it is
all letters, starts with an upper-case letter and its second character is
lower case (the `\b` anchors force the whole run to match or nothing). -/
def isCamelWord (w : Str) : Bool :=
  match w with
  | c1 :: c2 :: rest => isUpperC c1 && isLowerC c2 && rest.all isAlphaC
  | _ => false

/-- Python `str.isupper` (ASCII model): at least one letter and no
lower-case letter. -/
def pyIsUpper (s : Str) : Bool := s.any isAlphaC && s.all (fun c => !isLowerC c)

/-- Python `str.title` (ASCII model): upper-case each letter that follows a
non-letter, lower-case the rest. -/
def pyTitleAux (prevAlpha : Bool) : Str → Str
  | [] => []
  | c :: cs =>
    if isAlphaC c then
      (if prevAlpha then asciiLowerC c else asciiUpperC c) :: pyTitleAux true cs
    else c :: pyTitleAux false cs

/-- Python `str.title` (ASCII model). -/
def pyTitle (s : Str) : Str := pyTitleAux false s

/-- Lexicographic comparison by code point (Python `sorted` on `str`). -/
def lexLe : Str → Str → Bool
  | [], _ => true
  | _ :: _, [] => false
  | a :: as, b :: bs => if a < b then true else if b < a then false else lexLe as bs

/-- Model of `MarkdownFormatter._extract_enhanced_concepts`: camel-case words from
titles, title-cased ALL-CAPS emphasized fragments (length 3..19), and
title-cased code-block languages other than `text`; deduplicated, filtered
to lengths 3..29, sorted, first 15.  (CPython collects into a `set`; the
subsequent `sorted` makes the set's iteration order irrelevant, so the set
is modelled as first-seen deduplication.) -/
def extractEnhancedConcepts (slides : List SlideData) : List Str :=
  let allConcepts := slides.flatMap fun s =>
    (match s.title with
     | some t => (wordRuns t).filter isCamelWord
     | none => []) ++
    ((s.structured_content.emphasized_text.filter fun t =>
        pyIsUpper t && 2 < t.length && t.length < 20).map pyTitle) ++
    ((s.code_blocks.filter fun cb => cb.1 ≠ str "text").map fun cb => pyTitle cb.1)
  (((dedupKeepFirst allConcepts).filter fun c =>
      2 < c.length && c.length < 30).mergeSort lexLe).take 15

/-- Model of `MarkdownFormatter._determine_learning_mode`: count activity types
(Python truthiness: `None` and empty tags ignored), pick the first
most-frequent one in first-occurrence order (CPython `max` over the
insertion-ordered counts dict), then bucket it by keyword. -/
def determineLearningMode (slides : List SlideData) : Str :=
  let acts := (slides.filterMap (·.activity_type)).filter (fun a => !a.isEmpty)
  match dedupKeepFirst acts with
  | [] => str "lecture"
  | k0 :: ks =>
    let primary := ks.foldl (fun best k =>
      if acts.count best < acts.count k then k else best) k0
    if containsSub (str "hands-on") primary || containsSub (str "lab") primary then
      str "experiential"
    else if containsSub (str "demo") primary then str "observational"
    else if containsSub (str "assessment") primary || containsSub (str "quiz") primary
      then str "evaluative"
    else str "instructional"

/-- Twice the cognitive-load score of `_assess_cognitive_load` (the Python
weights are halves, so doubled integer arithmetic is exact). -/
def cognitiveLoadScore2 (slides : List SlideData) : Nat :=
  slides.foldl (fun acc s =>
    acc + 4 * s.code_blocks.length + s.content.length
      + 2 * s.visual_elements.length
      + (if s.difficulty_level = str "advanced" then 6
         else if s.difficulty_level = str "intermediate" then 2 else 0)) 0

/-- Model of `MarkdownFormatter._assess_cognitive_load`: average load per slide
bucketed at > 6 / > 3 (exact-rational model of the float average;
`avg > 6` is `score2 > 12 * n`). -/
def assessCognitiveLoad (slides : List SlideData) : Str :=
  let n := slides.length
  let sc := cognitiveLoadScore2 slides
  if n = 0 then str "low"
  else if 12 * n < sc then str "high"
  else if 6 * n < sc then str "medium"
  else str "low"

/-- Twice the interaction score of `_assess_interaction_level`. -/
def interactionScore2 (slides : List SlideData) : Nat :=
  slides.foldl (fun acc s =>
    acc + (match s.activity_type with
      | some a =>
        if a.isEmpty then 0
        else if containsSub (str "hands-on") a || containsSub (str "lab") a then 6
        else if containsSub (str "exercise") a || containsSub (str "practice") a then 4
        else if containsSub (str "demo") a then 2
        else 0
      | none => 0) + 4 * s.assessment_items.length) 0

/-- Model of `MarkdownFormatter._assess_interaction_level`: average per slide
bucketed at > 2 / > 0.5 (exact-rational model: `avg > 2` is
`score2 > 4 * n`, `avg > 0.5` is `score2 > n`). -/
def assessInteractionLevel (slides : List SlideData) : Str :=
  let n := slides.length
  let sc := interactionScore2 slides
  if n = 0 then str "low"
  else if 4 * n < sc then str "high"
  else if n < sc then str "medium"
  else str "low"

/-- Model of `MarkdownFormatter._format_duration`. -/
def formatDuration (minutes : Nat) : Str :=
  if minutes < 60 then natToStr minutes ++ str " minutes"
  else
    let hours := minutes / 60
    let rem := minutes % 60
    if rem = 0 then
      natToStr hours ++ str " hour" ++ (if 1 < hours then str "s" else [])
    else
      natToStr hours ++ str " hour" ++ (if 1 < hours then str "s" else []) ++
        str " " ++ natToStr rem ++ str " minutes"

/-- Model of `MarkdownFormatter._get_activity_icon` table. -/
def ACTIVITY_ICONS : List (Str × Str) :=
  [(str "hands-on-lab", str "🧪"),
   (str "guided-exercise", str "📝"),
   (str "practice-session", str "💪"),
   (str "demonstration", str "🎬"),
   (str "hands-on-activity", str "🔧"),
   (str "troubleshooting-scenario", str "🔍"),
   (str "case-study", str "📋"),
   (str "knowledge-check", str "🧠"),
   (str "formal-assessment", str "📊"),
   (str "best-practices", str "⭐"),
   (str "real-world-application", str "🌍")]

/-- Model of `MarkdownFormatter._get_activity_icon`. -/
def getActivityIcon (a : Str) : Str := (ACTIVITY_ICONS.lookup a).getD (str "📚")

/-- Model of `MarkdownFormatter._get_guidance_icon` table. -/
def GUIDANCE_ICONS : List (Str × Str) :=
  [(str "timing", str "⏱️"),
   (str "emphasis", str "⚠️"),
   (str "examples", str "💡"),
   (str "tips", str "🔧"),
   (str "warnings", str "🚨"),
   (str "context", str "📖"),
   (str "delivery", str "🎯")]

/-- Model of `MarkdownFormatter._get_guidance_icon`. -/
def getGuidanceIcon (c : Str) : Str := (GUIDANCE_ICONS.lookup c).getD (str "📌")

/-- The fixed instructor-note categories of the formatter. -/
def GUIDANCE_CATEGORIES : List Str :=
  [str "timing", str "emphasis", str "examples", str "tips", str "warnings",
   str "context", str "delivery"]

/-- The action verbs checked when rendering learning objectives. -/
def ACTION_VERBS : List Str :=
  [str "understand", str "explain", str "demonstrate", str "configure",
   str "implement", str "analyze"]

/-- Model of `'\n'.join(lines)`. -/
def joinNl (lines : List Str) : Str := (lines.intersperse (str "\n")).flatten

/-- The per-slide section of `_generate_chunk_content`: heading, preserved
list structure, body text (emphasized items bolded), visual-element
descriptions, fenced code blocks, knowledge checks and instructor
guidance. -/
def slideContentLines (s : SlideData) : List Str :=
  let titleOnly : List Str :=
    match s.title with
    | some t => if t.isEmpty then [] else [str "### " ++ t]
    | none => []
  let heading : List Str :=
    if s.slide_layout_type = str "data-table" ∨
        s.slide_layout_type = str "data-visualization" then
      [str "### 📊 " ++ (match s.title with
        | some t => if t.isEmpty then str "Data Presentation" else t
        | none => str "Data Presentation")]
    else if s.slide_layout_type = str "image-focused" then
      [str "### 🖼️ " ++ (match s.title with
        | some t => if t.isEmpty then str "Visual Content" else t
        | none => str "Visual Content")]
    else
      match s.activity_type with
      | some a =>
        if a.isEmpty then titleOnly
        else [str "### " ++ getActivityIcon a ++ str " " ++
          (match s.title with
           | some t => if t.isEmpty then pyTitle a else t
           | none => pyTitle a)]
      | none => titleOnly
  let listLines : List Str :=
    if s.structured_content.lists.isEmpty then []
    else (s.structured_content.lists.flatMap fun grp =>
      grp.map fun item =>
        List.replicate (2 * (item.1 - 1)) ' ' ++ str "- " ++ item.2) ++ [[]]
  let contentLines : List Str := s.content.flatMap fun ci =>
    [(if s.structured_content.emphasized_text.contains ci then
        str "**" ++ ci ++ str "**"
      else ci), []]
  let visualLines : List Str :=
    if s.visual_elements.isEmpty then []
    else str "#### Visual Elements:" ::
      (s.visual_elements.map fun e =>
        str "- **" ++ pyTitle e.1 ++ str "**: " ++ e.2) ++ [[]]
  let codeLines : List Str := s.code_blocks.flatMap fun cb =>
    [(if s.activity_type = some (str "hands-on-lab") then str "#### 💻 Lab Code:"
      else if s.activity_type = some (str "demonstration") then str "#### 🎬 Demo Code:"
      else str "#### Code Example:"),
     str "```" ++ cb.1, cb.2, str "```", []]
  let assessLines : List Str :=
    if s.assessment_items.isEmpty then []
    else str "#### 🧠 Knowledge Check:" ::
      (s.assessment_items.map fun it => str "**Q**: " ++ it.content) ++ [[]]
  let notesLines : List Str :=
    if !s.instructor_notes.isEmpty then
      [str "#### 👨‍🏫 Instructor Guidance:", []] ++
        (s.instructor_notes.flatMap fun cn =>
          if cn.2.isEmpty then []
          else (str "**" ++ getGuidanceIcon cn.1 ++ str " " ++ pyTitle cn.1 ++
              str ":**") :: (cn.2.map fun n => str "- " ++ n) ++ [[]])
    else if !s.speaker_notes.isEmpty then
      [str "> **📝 Instructor Notes:** " ++ s.speaker_notes, []]
    else []
  heading ++ [[]] ++ listLines ++ contentLines ++ visualLines ++ codeLines ++
    assessLines ++ notesLines

/-- Model of `MarkdownFormatter._generate_chunk_content` (its `module_title`
parameter is unused in the source as well). -/
def generateChunkContent (slides : List SlideData) (module_title : Str) : Str :=
  let all_objectives := dedupKeepFirst (slides.flatMap (·.learning_objectives))
  let all_prerequisites := dedupKeepFirst (slides.flatMap (·.prerequisites))
  let prereqLines : List Str :=
    if all_prerequisites.isEmpty then []
    else [str "## 📋 Prerequisites", [],
      str "Before starting this module, you should have:"] ++
      ((all_prerequisites.take 3).map fun p => str "- " ++ p) ++ [[]]
  let objLines : List Str :=
    if all_objectives.isEmpty then []
    else [str "## 🎯 Learning Objectives", [],
      str "By the end of this module, you will be able to:"] ++
      ((all_objectives.take 5).map fun obj =>
        str "- " ++
          (if ACTION_VERBS.any (fun v => v.isPrefixOf (lowerStr obj)) then obj
           else str "Understand " ++ lowerStr obj)) ++ [[]]
  joinNl (prereqLines ++ objLines ++ [str "## 📚 Content", []] ++
    slides.flatMap slideContentLines)

/-- The `learning_context` dict of a chunk.  `assessment_density` is a
Python float `len(assessment_items) / len(slides)`; it is carried as the
exact pair (numerator, denominator) — downstream only the dict's
truthiness (non-emptiness) is ever observed. -/
structure LearningContext where
  module_sequence_position : Str
  primary_learning_mode : Str
  cognitive_load : Str
  interaction_level : Str
  assessment_density_num : Nat
  assessment_density_den : Nat
deriving DecidableEq

/-- Model of `formatter.ChunkData`. -/
structure ChunkData where
  module_id : Str
  module_title : Str
  slide_range : Nat × Nat
  content : Str
  learning_objectives : List Str
  concepts : List Str
  activity_type : Option Str
  estimated_duration : Str
  prerequisites : List Str
  difficulty_level : Str
  instructor_guidance : List (Str × List Str)
  assessment_items : List AssessmentItem
  compliance_markers : List Str
  visual_elements_summary : List Str
  slide_layout_types : List Str
  chunk_index : Nat
  total_chunks : Nat
  learning_context : LearningContext
deriving DecidableEq

/-- Model of `MarkdownFormatter._create_chunk`.  The `raise ValueError` on an empty
slide group is modelled as `none`.  `list(set(...))` (compliance markers,
layout types) and the `set`-keyed difficulty counts are modelled with
first-seen order: the element sets are exact, CPython's set iteration
order is hash-dependent and unspecified.  Foreign instructor-note
categories (outside the fixed seven) would raise `KeyError` in the source
and are outside the model — the extractor only ever produces these
seven. -/
def createChunk (slides : List SlideData) (module_title : Str)
    (module_number chunk_index total_chunks : Nat) : Option ChunkData :=
  match slides with
  | [] => none
  | s0 :: rest =>
    let slidesNE := s0 :: rest
    let lastSlide := slidesNE.getLast (List.cons_ne_nil s0 rest)
    let assessment_items := slidesNE.flatMap (·.assessment_items)
    let diffLevels := slidesNE.map (·.difficulty_level)
    some {
      module_id := generateModuleId module_title module_number
      module_title := module_title
      slide_range := (s0.slide_number, lastSlide.slide_number)
      content := generateChunkContent slidesNE module_title
      learning_objectives :=
        dedupKeepFirst (slidesNE.flatMap (·.learning_objectives))
      concepts := extractEnhancedConcepts slidesNE
      activity_type :=
        ((slidesNE.filterMap (·.activity_type)).filter (fun a => !a.isEmpty)).head?
      estimated_duration :=
        formatDuration ((slidesNE.map (·.estimated_time)).sum)
      prerequisites := dedupKeepFirst (slidesNE.flatMap (·.prerequisites))
      difficulty_level :=
        (match dedupKeepFirst diffLevels with
         | [] => str "beginner"
         | k0 :: ks => ks.foldl (fun best k =>
             if diffLevels.count best < diffLevels.count k then k else best) k0)
      instructor_guidance := GUIDANCE_CATEGORIES.map fun cat =>
        (cat, slidesNE.flatMap fun s => (s.instructor_notes.lookup cat).getD [])
      assessment_items := assessment_items
      compliance_markers := dedupKeepFirst (slidesNE.flatMap (·.compliance_markers))
      visual_elements_summary := dedupKeepFirst (slidesNE.flatMap fun s =>
        s.visual_elements.map fun e => e.1 ++ str ": " ++ e.2)
      slide_layout_types := dedupKeepFirst (slidesNE.map (·.slide_layout_type))
      chunk_index := chunk_index
      total_chunks := total_chunks
      learning_context := {
        module_sequence_position :=
          natToStr chunk_index ++ str " of " ++ natToStr total_chunks
        primary_learning_mode := determineLearningMode slidesNE
        cognitive_load := assessCognitiveLoad slidesNE
        interaction_level := assessInteractionLevel slidesNE
        assessment_density_num := assessment_items.length
        assessment_density_den := slidesNE.length } }

/-- C9 (confirmed).  Chunk creation from an empty slide group is
signalled immediately (the source raises `ValueError`, modelled as `none`)
for every combination of the other arguments, and never otherwise: a
non-empty group always yields a chunk. -/
theorem c9_empty_group_rejected :
    (∀ (title : Str) (num i tot : Nat), createChunk [] title num i tot = none) ∧
    (∀ (s : SlideData) (rest : List SlideData) (title : Str) (num i tot : Nat),
      (createChunk (s :: rest) title num i tot).isSome = true) :=
  ⟨fun _ _ _ _ => rfl, fun _ _ _ _ _ _ => rfl⟩

/-! ### Aggregated-field deduplication (C5) -/

theorem mem_dedupKeepFirstAux {α : Type} [DecidableEq α] :
    ∀ (l seen : List α) (x : α),
      x ∈ dedupKeepFirstAux seen l ↔ x ∈ l ∧ x ∉ seen := by
  intro l
  induction l with
  | nil => intro seen x; simp [dedupKeepFirstAux]
  | cons a t ih =>
    intro seen x
    unfold dedupKeepFirstAux
    by_cases ha : a ∈ seen
    · rw [if_pos ha, ih]
      constructor
      · rintro ⟨hx, hns⟩
        exact ⟨List.mem_cons_of_mem _ hx, hns⟩
      · rintro ⟨hx, hns⟩
        rcases List.mem_cons.1 hx with rfl | hx'
        · exact absurd ha hns
        · exact ⟨hx', hns⟩
    · rw [if_neg ha]
      constructor
      · intro h
        rcases List.mem_cons.1 h with rfl | h'
        · exact ⟨List.mem_cons_self _ _, ha⟩
        · have := (ih _ _).1 h'
          refine ⟨List.mem_cons_of_mem _ this.1, fun hc => this.2 ?_⟩
          exact List.mem_cons_of_mem _ hc
      · rintro ⟨hx, hns⟩
        rcases List.mem_cons.1 hx with rfl | hx'
        · exact List.mem_cons_self _ _
        · by_cases hxa : x = a
          · subst hxa; exact List.mem_cons_self _ _
          · exact List.mem_cons_of_mem _
              ((ih _ _).2 ⟨hx', by simp [hxa, hns]⟩)

theorem mem_dedupKeepFirst {α : Type} [DecidableEq α] :
    ∀ (l : List α) (x : α), x ∈ dedupKeepFirst l ↔ x ∈ l := by
  intro l x
  unfold dedupKeepFirst
  rw [mem_dedupKeepFirstAux]
  simp

theorem dedupKeepFirstAux_nodup {α : Type} [DecidableEq α] :
    ∀ (l seen : List α), (dedupKeepFirstAux seen l).Nodup := by
  intro l
  induction l with
  | nil => intro seen; simp [dedupKeepFirstAux]
  | cons a t ih =>
    intro seen
    unfold dedupKeepFirstAux
    by_cases ha : a ∈ seen
    · rw [if_pos ha]
      exact ih seen
    · rw [if_neg ha]
      refine List.nodup_cons.2 ⟨?_, ih _⟩
      intro hmem
      exact ((mem_dedupKeepFirstAux _ _ _).1 hmem).2 (List.mem_cons_self _ _)

theorem dedupKeepFirst_nodup {α : Type} [DecidableEq α] :
    ∀ l : List α, (dedupKeepFirst l).Nodup := by
  intro l
  exact dedupKeepFirstAux_nodup l []

/-- C5 counterexample fixture: two slides carrying the compliance
markers `"GDPR"` and `"gdpr"`, equal up to case. -/
def c5slides : List SlideData :=
  [{ baseSlide 1 none [] none false with compliance_markers := [str "GDPR"] },
   { baseSlide 2 none [] none false with compliance_markers := [str "gdpr"] }]

/-- The compliance markers of the chunk built from `c5slides`. -/
def c5markers : List Str :=
  ((createChunk c5slides (str "Intro") 1 1 1).map (·.compliance_markers)).getD []

set_option maxRecDepth 16384 in
/-- C5, claim as stated is false.  The chunk aggregated from `c5slides`
keeps both `"GDPR"` and `"gdpr"` (the source deduplicates compliance
markers with a case-sensitive `list(set(...))`), so the aggregated list is
not duplicate-free under the claimed case-insensitive comparison — in any
iteration order of the set. -/
theorem c5_dedup_counterexample :
    (createChunk c5slides (str "Intro") 1 1 1).isSome = true ∧
    str "GDPR" ∈ c5markers ∧ str "gdpr" ∈ c5markers ∧
    ¬ (c5markers.map lowerStr).Nodup := by
  refine ⟨rfl, by decide, by decide, by decide⟩

/-- C5 (amended).  For every non-empty slide group, the aggregated
objectives, prerequisites and visual-element summaries are exactly the
concatenation of the per-slide lists in slide order deduplicated
case-sensitively keeping the first occurrence (hence duplicate-free and in
first-seen order); the aggregated compliance markers hold exactly the set
of concatenated per-slide markers, deduplicated case-SENSITIVELY (not
case-insensitively), with `list(set(...))`'s unspecified order. -/
theorem c5_chunk_dedup (slides : List SlideData) (h : slides ≠ [])
    (module_title : Str) (num i tot : Nat) :
    ∃ ch, createChunk slides module_title num i tot = some ch ∧
      ch.learning_objectives =
        dedupKeepFirst (slides.flatMap (·.learning_objectives)) ∧
      ch.learning_objectives.Nodup ∧
      ch.prerequisites = dedupKeepFirst (slides.flatMap (·.prerequisites)) ∧
      ch.prerequisites.Nodup ∧
      ch.visual_elements_summary = dedupKeepFirst (slides.flatMap fun s =>
        s.visual_elements.map fun e => e.1 ++ str ": " ++ e.2) ∧
      ch.visual_elements_summary.Nodup ∧
      (∀ x, x ∈ ch.compliance_markers ↔
        x ∈ slides.flatMap (·.compliance_markers)) ∧
      ch.compliance_markers.Nodup := by
  match slides, h with
  | s0 :: rest, _ =>
    refine ⟨_, rfl, rfl, dedupKeepFirst_nodup _, rfl, dedupKeepFirst_nodup _,
      rfl, dedupKeepFirst_nodup _, ?_, dedupKeepFirst_nodup _⟩
    intro x
    exact mem_dedupKeepFirst _ x

/-- Witness for `c5_chunk_dedup` at the concrete two-slide group
`c5slides`. -/
theorem c5_chunk_dedup_witness :
    ∃ ch, createChunk c5slides (str "Intro") 1 1 1 = some ch ∧
      ch.learning_objectives =
        dedupKeepFirst (c5slides.flatMap (·.learning_objectives)) ∧
      ch.learning_objectives.Nodup ∧
      ch.prerequisites = dedupKeepFirst (c5slides.flatMap (·.prerequisites)) ∧
      ch.prerequisites.Nodup ∧
      ch.visual_elements_summary = dedupKeepFirst (c5slides.flatMap fun s =>
        s.visual_elements.map fun e => e.1 ++ str ": " ++ e.2) ∧
      ch.visual_elements_summary.Nodup ∧
      (∀ x, x ∈ ch.compliance_markers ↔
        x ∈ c5slides.flatMap (·.compliance_markers)) ∧
      ch.compliance_markers.Nodup :=
  c5_chunk_dedup c5slides (by decide) (str "Intro") 1 1 1

/-! ## Markdown rendering (`MarkdownFormatter._generate_markdown`) and the
front-matter round trip (C7) -/

/-- YAML values appearing in the front matter.  `ratio` carries the one
float (`assessment_density`) as an exact numerator/denominator pair; only
its truthiness is ever observed downstream. -/
inductive Yaml where
  | s (v : Str)
  | n (v : Nat)
  | list (v : List Yaml)
  | dict (v : List (Str × Yaml))
  | nullV
  | ratio (num den : Nat)

/-- Python truthiness of a front-matter value (the
`{k: v for k, v in frontmatter.items() if v}` filter). -/
def pyTruthy : Yaml → Bool
  | .s v => !v.isEmpty
  | .n v => !(v == 0)
  | .list v => !v.isEmpty
  | .dict v => !v.isEmpty
  | .nullV => false
  | .ratio num _ => !(num == 0)

/-- The front-matter dict of `_generate_markdown` before the truthiness
filter, in source insertion order.  `actual_token_estimate` is literally
`self._estimate_chunk_tokens([])` in the source. -/
def chunkFrontmatterRaw (budget : Nat) (c : ChunkData) : List (Str × Yaml) :=
  [(str "module_id", .s c.module_id),
   (str "module_title", .s c.module_title),
   (str "slide_range", .list [.n c.slide_range.1, .n c.slide_range.2]),
   (str "chunk_index", .n c.chunk_index),
   (str "total_chunks", .n c.total_chunks),
   (str "learning_objectives", .list (c.learning_objectives.map .s)),
   (str "prerequisites", .list (c.prerequisites.map .s)),
   (str "concepts", .list (c.concepts.map .s)),
   (str "difficulty_level", .s c.difficulty_level),
   (str "estimated_duration", .s c.estimated_duration),
   (str "learning_context", .dict
     [(str "module_sequence_position", .s c.learning_context.module_sequence_position),
      (str "primary_learning_mode", .s c.learning_context.primary_learning_mode),
      (str "cognitive_load", .s c.learning_context.cognitive_load),
      (str "interaction_level", .s c.learning_context.interaction_level),
      (str "assessment_density", .ratio c.learning_context.assessment_density_num
        c.learning_context.assessment_density_den)]),
   (str "slide_layout_types", .list (c.slide_layout_types.map .s)),
   (str "activity_type",
     match c.activity_type with | some a => .s a | none => .nullV),
   (str "assessment_items_count", .n c.assessment_items.length),
   (str "compliance_markers", .list (c.compliance_markers.map .s)),
   (str "visual_elements_count", .n c.visual_elements_summary.length),
   (str "instructor_guidance_categories", .list
     (if c.instructor_guidance.isEmpty then []
      else (c.instructor_guidance.map (·.1)).map Yaml.s)),
   (str "token_optimization", .dict
     [(str "chunk_size_target", .n budget),
      (str "actual_token_estimate", .n (estimateChunkTokens [])),
      (str "content_density", .s c.learning_context.cognitive_load),
      (str "interaction_level", .s c.learning_context.interaction_level)])]

/-- The filtered front matter actually serialized. -/
def chunkFrontmatter (budget : Nat) (c : ChunkData) : List (Str × Yaml) :=
  (chunkFrontmatterRaw budget c).filter fun kv => pyTruthy kv.2

/-- Model of `', '.join(xs)`. -/
def joinComma (l : List Str) : Str := (l.intersperse (str ", ")).flatten

/-- A rendered markdown document: the front-matter mapping (serialized
between the two `---` fences) and the body lines that follow. -/
structure Rendered where
  frontmatter : List (Str × Yaml)
  bodyLines : List Str

/-- Model of `MarkdownFormatter._generate_markdown`: the YAML front matter followed
by the title heading, the part-X-of-Y note, the compliance notice, the
chunk content, and the instructor-guidance summary. -/
def generateMarkdown (budget : Nat) (c : ChunkData) : Rendered :=
  let partsSeries : List Str :=
    if 1 < c.total_chunks then
      [str "*This is part " ++ natToStr c.chunk_index ++ str " of " ++
        natToStr c.total_chunks ++ str " in the " ++ c.module_title ++
        str " module series.*", []]
    else []
  let partsCompliance : List Str :=
    if !c.compliance_markers.isEmpty then
      [str "**🔒 Compliance Notice:** This content relates to " ++
        joinComma c.compliance_markers ++ str " requirements.", []]
    else []
  let guidanceSummary : List Str :=
    if !c.instructor_guidance.isEmpty &&
        c.instructor_guidance.any (fun cn => !cn.2.isEmpty) then
      [[], str "---", [], str "## 📋 Instructor Guidance Summary", [],
       str "*This section provides context for AI assistants about the instructional intent:*",
       []] ++
      c.instructor_guidance.flatMap fun cn =>
        if cn.2.isEmpty then []
        else
          [str "**" ++ getGuidanceIcon cn.1 ++ str " " ++ pyTitle cn.1 ++
             str " (" ++ natToStr cn.2.length ++ str " items):**",
           str "- " ++ joinSp (cn.2.take 2) ++
             (if 2 < cn.2.length then str "..." else []),
           []]
    else []
  { frontmatter := chunkFrontmatter budget c
    bodyLines := [str "# " ++ c.module_title, []] ++ partsSeries ++
      partsCompliance ++ [c.content] ++ guidanceSummary }

/-- Modelled from the spec: re-parsing the YAML front-matter block of a
rendered document recovers the serialized mapping.  The `yaml.dump` /
`yaml.safe_load` codec is the third-party pyyaml library, not code under
src/; per §4.4 the front matter is "serialized in a stable, human-readable
structured-data format", i.e. dump-then-parse is the identity on the
mapping. -/
def parseFrontmatter (r : Rendered) : List (Str × Yaml) := r.frontmatter

theorem lookup_filter_nodupKeys {α β : Type} [BEq α] [LawfulBEq α] :
    ∀ {l : List (α × β)} {k : α} {v : β} {p : α × β → Bool},
      (l.map Prod.fst).Nodup → (k, v) ∈ l → p (k, v) = true →
      (l.filter p).lookup k = some v := by
  intro l
  induction l with
  | nil => intro k v p _ hmem _; simp at hmem
  | cons a t ih =>
    intro k v p hnd hmem hp
    rcases List.mem_cons.1 hmem with heq | hmem'
    · subst heq
      rw [List.filter_cons, if_pos hp]
      simp [List.lookup]
    · have hk : k ∈ t.map Prod.fst := List.mem_map.2 ⟨(k, v), hmem', rfl⟩
      have hne : (k == a.1) = false := by
        have : a.1 ∉ t.map Prod.fst := (List.nodup_cons.1 (by simpa using hnd)).1
        have hka : k ≠ a.1 := fun h => this (h ▸ hk)
        simpa using hka
      have hndt : (t.map Prod.fst).Nodup :=
        (List.nodup_cons.1 (by simpa using hnd)).2
      rw [List.filter_cons]
      by_cases hpa : p a = true
      · rw [if_pos hpa]
        cases a with
        | mk a1 a2 =>
          simp only [List.lookup, hne]
          exact ih hndt hmem' hp
      · rw [if_neg hpa]
        exact ih hndt hmem' hp

/-- C7 (confirmed).  For every finalized chunk (`chunk_index` and
`total_chunks` assigned, hence positive, and the chunk's `module_id`
non-empty — `_generate_module_id` always yields one), rendering and
re-parsing the front matter recovers exactly the `module_id`,
`slide_range`, `chunk_index` and `total_chunks` that were set. -/
theorem c7_frontmatter_roundtrip (budget : Nat) (c : ChunkData)
    (hidx : 1 ≤ c.chunk_index) (htot : 1 ≤ c.total_chunks)
    (hmid : c.module_id ≠ []) :
    (parseFrontmatter (generateMarkdown budget c)).lookup (str "module_id") =
      some (.s c.module_id) ∧
    (parseFrontmatter (generateMarkdown budget c)).lookup (str "slide_range") =
      some (.list [.n c.slide_range.1, .n c.slide_range.2]) ∧
    (parseFrontmatter (generateMarkdown budget c)).lookup (str "chunk_index") =
      some (.n c.chunk_index) ∧
    (parseFrontmatter (generateMarkdown budget c)).lookup (str "total_chunks") =
      some (.n c.total_chunks) := by
  have hkeys : ((chunkFrontmatterRaw budget c).map Prod.fst).Nodup := by
    have : (chunkFrontmatterRaw budget c).map Prod.fst =
        [str "module_id", str "module_title", str "slide_range",
         str "chunk_index", str "total_chunks", str "learning_objectives",
         str "prerequisites", str "concepts", str "difficulty_level",
         str "estimated_duration", str "learning_context",
         str "slide_layout_types", str "activity_type",
         str "assessment_items_count", str "compliance_markers",
         str "visual_elements_count", str "instructor_guidance_categories",
         str "token_optimization"] := rfl
    rw [this]
    decide
  have hshape : parseFrontmatter (generateMarkdown budget c) =
      chunkFrontmatter budget c := rfl
  have hmid' : pyTruthy (.s c.module_id) = true := by
    cases hm : c.module_id with
    | nil => exact absurd hm hmid
    | cons a t => rfl
  have hidx' : pyTruthy (.n c.chunk_index) = true := by
    have : (c.chunk_index == 0) = false := by
      simpa using (by omega : c.chunk_index ≠ 0)
    simp [pyTruthy, this]
  have htot' : pyTruthy (.n c.total_chunks) = true := by
    have : (c.total_chunks == 0) = false := by
      simpa using (by omega : c.total_chunks ≠ 0)
    simp [pyTruthy, this]
  refine ⟨?_, ?_, ?_, ?_⟩ <;> rw [hshape] <;> unfold chunkFrontmatter
  · exact lookup_filter_nodupKeys hkeys (by simp [chunkFrontmatterRaw]) hmid'
  · exact lookup_filter_nodupKeys hkeys (by simp [chunkFrontmatterRaw]) rfl
  · exact lookup_filter_nodupKeys hkeys (by simp [chunkFrontmatterRaw]) hidx'
  · exact lookup_filter_nodupKeys hkeys (by simp [chunkFrontmatterRaw]) htot'

/-- A concrete finalized chunk for the round-trip witness. -/
def c7chunk : ChunkData where
  module_id := str "01-intro"
  module_title := str "Intro"
  slide_range := (1, 2)
  content := []
  learning_objectives := []
  concepts := []
  activity_type := none
  estimated_duration := str "4 minutes"
  prerequisites := []
  difficulty_level := str "beginner"
  instructor_guidance := []
  assessment_items := []
  compliance_markers := []
  visual_elements_summary := []
  slide_layout_types := []
  chunk_index := 1
  total_chunks := 1
  learning_context :=
    ⟨str "1 of 1", str "lecture", str "low", str "low", 0, 2⟩

/-- Witness for `c7_frontmatter_roundtrip` at the concrete chunk
`c7chunk`. -/
theorem c7_frontmatter_roundtrip_witness :
    (parseFrontmatter (generateMarkdown 1500 c7chunk)).lookup (str "module_id") =
      some (.s c7chunk.module_id) ∧
    (parseFrontmatter (generateMarkdown 1500 c7chunk)).lookup (str "slide_range") =
      some (.list [.n c7chunk.slide_range.1, .n c7chunk.slide_range.2]) ∧
    (parseFrontmatter (generateMarkdown 1500 c7chunk)).lookup (str "chunk_index") =
      some (.n c7chunk.chunk_index) ∧
    (parseFrontmatter (generateMarkdown 1500 c7chunk)).lookup (str "total_chunks") =
      some (.n c7chunk.total_chunks) :=
  c7_frontmatter_roundtrip 1500 c7chunk (by decide) (by decide) (by decide)

/-! ## `MarkdownFormatter.format` and the filename-to-document mapping (C8) -/

/-- The `(filename, document)` pairs produced by `MarkdownFormatter.format`
in loop order: dispatch the strategy, build each chunk (with the running
`len(chunks) + 1` index and total 0, exactly as the source passes them),
then finalize `chunk_index`/`total_chunks` and sanitize
`f"{presentation_name}_{chunk.module_id}.md"`.  The `filterMap` never drops
anything: the groups are provably non-empty, so `createChunk` never
signals. -/
def formatEntries (est : List SlideData → Nat) (budget : Nat)
    (slides : List SlideData) (strategy : String) (presName : Str) :
    List (Str × Rendered) :=
  let triples := chunkTriples strategy est budget slides
  let chunks := triples.enum.filterMap fun it =>
    createChunk it.2.1 it.2.2.1 it.2.2.2 (it.1 + 1) 0
  let total := chunks.length
  chunks.enum.map fun ic =>
    let ch := { ic.2 with chunk_index := ic.1 + 1, total_chunks := total }
    (sanitizeFilename (presName ++ str "_" ++ ch.module_id ++ str ".md"),
     generateMarkdown budget ch)

/-- The returned dict `markdown_files`: the entries inserted in order with
Python dict-assignment semantics (a colliding filename overwrites the
earlier document in place). -/
def formatFiles (est : List SlideData → Nat) (budget : Nat)
    (slides : List SlideData) (strategy : String) (presName : Str) :
    List (Str × Rendered) :=
  (formatEntries est budget slides strategy presName).foldl
    (fun m kv => dictInsert kv.1 kv.2 m) []

theorem dictInsert_of_not_mem {α β : Type} [BEq α] [LawfulBEq α]
    {k : α} {v : β} : ∀ {m : List (α × β)}, k ∉ m.map Prod.fst →
    dictInsert k v m = m ++ [(k, v)] := by
  intro m
  induction m with
  | nil => intro _; rfl
  | cons a t ih =>
    intro hk
    unfold dictInsert
    have hne : (k == a.1) = false := by
      have : k ≠ a.1 := fun h => hk (by simp [h])
      simpa using this
    cases a with
    | mk a1 a2 =>
      simp only at hne
      rw [if_neg (by simp [hne])]
      rw [ih (fun h => hk (by simp [h]))]
      simp

theorem foldl_dictInsert_disjoint {α β : Type} [BEq α] [LawfulBEq α] :
    ∀ (l m : List (α × β)),
      (∀ k ∈ m.map Prod.fst, k ∉ l.map Prod.fst) →
      (l.map Prod.fst).Nodup →
      l.foldl (fun acc kv => dictInsert kv.1 kv.2 acc) m = m ++ l := by
  intro l
  induction l with
  | nil => intro m _ _; simp
  | cons a t ih =>
    intro m hdis hnd
    have ha : a.1 ∉ m.map Prod.fst := by
      intro hmem
      exact hdis a.1 hmem (by simp)
    rw [List.foldl_cons, dictInsert_of_not_mem ha]
    have hnd' : (t.map Prod.fst).Nodup :=
      (List.nodup_cons.1 (by simpa using hnd)).2
    have ha1 : a.1 ∉ t.map Prod.fst :=
      (List.nodup_cons.1 (by simpa using hnd)).1
    rw [ih (m ++ [(a.1, a.2)]) ?_ hnd']
    · simp
    · intro k hk
      rcases List.mem_map.1 hk with ⟨kv, hkv, rfl⟩
      rcases List.mem_append.1 hkv with h' | h'
      · intro hc
        exact hdis kv.1 (List.mem_map.2 ⟨kv, h', rfl⟩)
          (List.mem_cons_of_mem _ hc)
      · simp at h'
        rw [h']
        exact ha1

/-- C8 counterexample fixture: two content-bearing slides that the
sequential strategy (budget 3) splits into two chunks. -/
def c8slides : List SlideData :=
  [baseSlide 1 none [str "aaaaaaaa"] none false,
   baseSlide 2 none [str "bbbbbbbb"] none false]

/-- A 200-character presentation name: both chunks' filenames truncate to
the same 147 `x`s plus `.md`. -/
def c8name : Str := List.replicate 200 'x'

set_option maxRecDepth 65536 in
/-- C8, claim as stated is false.  With the 200-character presentation
name `c8name`, `format` produces two chunks but the returned mapping holds
a single entry: both filenames sanitize to the same truncated key and the
second document overwrites the first — silent document loss. -/
theorem c8_mapping_counterexample :
    (formatEntries estimateChunkTokens 3 c8slides "sequential" c8name).length = 2 ∧
    (formatFiles estimateChunkTokens 3 c8slides "sequential" c8name).length = 1 := by
  refine ⟨by decide, by decide⟩

/-- C8 (amended).  Whenever the sanitized filenames of the produced
chunks are pairwise distinct, the mapping returned by `format` is exactly
the per-chunk `(filename, document)` list, in order — one entry per chunk,
no document lost.  (When two sanitized filenames collide — e.g. long
presentation names truncated by `sanitize_filename` — the later chunk
overwrites the earlier entry.) -/
theorem c8_mapping_complete (est : List SlideData → Nat) (budget : Nat)
    (slides : List SlideData) (strategy : String) (presName : Str)
    (hnd : ((formatEntries est budget slides strategy presName).map
      Prod.fst).Nodup) :
    formatFiles est budget slides strategy presName =
      formatEntries est budget slides strategy presName := by
  unfold formatFiles
  have := foldl_dictInsert_disjoint
    (formatEntries est budget slides strategy presName) []
    (fun _ hk => nomatch hk) hnd
  simpa using this

set_option maxRecDepth 65536 in
/-- Witness for `c8_mapping_complete`: with the short presentation name
`"deck"` the two sequential chunks get distinct filenames and the mapping
equals the full entry list. -/
theorem c8_mapping_complete_witness :
    formatFiles estimateChunkTokens 3 c8slides "sequential" (str "deck") =
      formatEntries estimateChunkTokens 3 c8slides "sequential" (str "deck") :=
  c8_mapping_complete estimateChunkTokens 3 c8slides "sequential" (str "deck")
    (by decide)
